import Mathlib

/-!
Verification of the storage-assignment and verification analysis
(`storage.cc` / `storage.h`).

The development shallowly embeds the buffer-unification engine, the
value-storage merge operations and the verification sub-passes.  The
mapping-expression algebra, the loop-fusion analysis and the
iteration-space analysis are external collaborators of this code; they are
modelled from the spec where their behaviour is needed (each such
definition carries a doc comment starting with "Modelled from the spec").
All definitions taken from `storage.cc` follow the source structure.
-/

namespace SairStorage

/-- Names of loops, buffers and memory spaces (`mlir::StringAttr`); the null
attribute is represented with `Option`. -/
abbrev Name := String

/-- Source locations (`mlir::Location`), abstracted to an identifier. -/
abbrev Loc := Nat

/-- Scalar element types (`mlir::Type`), abstracted to an identifier. -/
abbrev MlirType := String

/-- Identity of a Sair value (`mlir::Value` / `ResultInstance`). -/
abbrev ValueId := Nat

/-- Identity of an operation (`mlir::Operation`). -/
abbrev OpId := Nat

/-- Modelled from the spec: the algebraic mapping expressions are a closed
tagged variant with dimension-reference, stripe, unstripe, none-placeholder
and unknown-placeholder constructors.  The `unstripe` variant is modelled
with a single sub-expression. -/
inductive MappingExpr where
  | dim (i : Nat)
  | noneE
  | unknownE
  | stripe (e : MappingExpr) (factors : List Nat)
  | unstripe (e : MappingExpr) (factors : List Nat)
deriving DecidableEq, Repr

namespace MappingExpr

/-- Modelled from the spec: whether an expression contains a "none"
placeholder. -/
def hasNone : MappingExpr → Bool
  | dim _ => false
  | noneE => true
  | unknownE => false
  | stripe e _ => hasNone e
  | unstripe e _ => hasNone e

/-- Modelled from the spec: whether an expression contains a `?` (unknown)
placeholder. -/
def hasUnknown : MappingExpr → Bool
  | dim _ => false
  | noneE => false
  | unknownE => true
  | stripe e _ => hasUnknown e
  | unstripe e _ => hasUnknown e

/-- Modelled from the spec: dimensions of the use domain referenced by an
expression (dependency-mask query). -/
def deps : MappingExpr → List Nat
  | dim i => [i]
  | noneE => []
  | unknownE => []
  | stripe e _ => deps e
  | unstripe e _ => deps e

/-- Modelled from the spec: shift every dimension reference right by `n`. -/
def shift (n : Nat) : MappingExpr → MappingExpr
  | dim i => dim (i + n)
  | noneE => noneE
  | unknownE => unknownE
  | stripe e f => stripe (shift n e) f
  | unstripe e f => unstripe (shift n e) f

/-- Modelled from the spec: substitute each dimension reference by the
corresponding expression of `s`; out-of-range references become "none". -/
def subst (s : List MappingExpr) : MappingExpr → MappingExpr
  | dim i => s.getD i noneE
  | noneE => noneE
  | unknownE => unknownE
  | stripe e f => stripe (subst s e) f
  | unstripe e f => unstripe (subst s e) f

/-- Modelled from the spec: `ResizeUseDomain` replaces expressions that
reference removed dimensions of the use domain by "none". -/
def resizeUse (n : Nat) (e : MappingExpr) : MappingExpr :=
  if (deps e).all (· < n) then e else noneE

/-- Modelled from the spec: unification that substitutes `?` (unknown)
placeholders only; concrete sub-expressions must agree exactly. -/
def unifyUnknown : MappingExpr → MappingExpr → Option MappingExpr
  | unknownE, e => some e
  | dim i, unknownE => some (dim i)
  | noneE, unknownE => some noneE
  | stripe e f, unknownE => some (stripe e f)
  | unstripe e f, unknownE => some (unstripe e f)
  | dim i, dim j => if i = j then some (dim i) else none
  | noneE, noneE => some noneE
  | stripe e f, stripe e' f' =>
      if f = f' then (unifyUnknown e e').map (stripe · f) else none
  | unstripe e f, unstripe e' f' =>
      if f = f' then (unifyUnknown e e').map (unstripe · f) else none
  | _, _ => none

/-- Modelled from the spec: unification where "none" and `?` placeholders are
both resolvable to the other side's concrete expression.  When the two sides
hold conflicting concrete expressions the left side is kept; the callers of
`Buffer::UnifyLayout` only reach this operation after unification
constraints have been resolved successfully. -/
def unifyE : MappingExpr → MappingExpr → MappingExpr
  | unknownE, e => e
  | noneE, e => e
  | e, unknownE => e
  | e, noneE => e
  | stripe e f, stripe e' f' => if f = f' then stripe (unifyE e e') f else stripe e f
  | unstripe e f, unstripe e' f' =>
      if f = f' then unstripe (unifyE e e') f else unstripe e f
  | e, _ => e

/-- The result of a successful `?`-unification refines `old`: it can differ
from `old` only below `?` placeholders of `old`. -/
def refines : MappingExpr → MappingExpr → Bool
  | unknownE, _ => true
  | dim i, dim j => i = j
  | noneE, noneE => true
  | stripe e f, stripe e' f' => f = f' && refines e e'
  | unstripe e f, unstripe e' f' => f = f' && refines e e'
  | _, _ => false

end MappingExpr

/-- A mapping attribute (`MappingAttr`): a list of mapping expressions over a
use domain of a given size.  Modelled from the spec; the operations below
mirror the algebra interface consumed by `storage.cc`. -/
structure MappingAttr where
  use_domain_size : Nat
  exprs : List MappingExpr
deriving DecidableEq, Repr

instance : Inhabited MappingAttr := ⟨⟨0, []⟩⟩

namespace MappingAttr

/-- Number of expressions in the mapping (`MappingAttr::size`). -/
def size (m : MappingAttr) : Nat := m.exprs.length

/-- Modelled from the spec: identity mapping over `n` dimensions. -/
def getIdentity (n : Nat) : MappingAttr :=
  ⟨n, (List.range n).map .dim⟩

/-- Modelled from the spec: resize the use domain, replacing expressions that
reference removed dimensions by "none". -/
def resizeUseDomain (n : Nat) (m : MappingAttr) : MappingAttr :=
  ⟨n, m.exprs.map (MappingExpr.resizeUse n)⟩

/-- Modelled from the spec: resize the mapping itself, keeping the first `n`
expressions and padding with "none". -/
def resize (n : Nat) (m : MappingAttr) : MappingAttr :=
  ⟨m.use_domain_size, m.exprs.take n ++ List.replicate (n - m.exprs.length) .noneE⟩

/-- Modelled from the spec: composition `a.Compose(b)`; dimension references
of `b` are substituted by the expressions of `a`. -/
def compose (a b : MappingAttr) : MappingAttr :=
  ⟨a.use_domain_size, b.exprs.map (MappingExpr.subst a.exprs)⟩

/-- Modelled from the spec: dependency mask, the list of use-domain
dimensions referenced by the mapping. -/
def dependencyMask (m : MappingAttr) : List Nat :=
  (m.exprs.map MappingExpr.deps).flatten

/-- Set bits of the dependency mask in ascending order, without
duplicates. -/
def setBitsAsc (m : MappingAttr) : List Nat :=
  (List.range (m.dependencyMask.foldl max 0 + 1)).filter (m.dependencyMask.contains ·)

/-- First set bit of the dependency mask (`find_first`), if any. -/
def firstDep (m : MappingAttr) : Option Nat :=
  m.dependencyMask.foldl
    (fun acc d => match acc with
      | none => some d
      | some x => some (min x d))
    none

/-- Modelled from the spec: smallest use-domain size on which the mapping is
well defined. -/
def minDomainSize (m : MappingAttr) : Nat :=
  m.dependencyMask.foldl (fun acc d => max acc (d + 1)) 0

/-- Whether any expression contains a "none" placeholder. -/
def hasNoneExprs (m : MappingAttr) : Bool :=
  m.exprs.any MappingExpr.hasNone

/-- Whether any expression contains a `?` placeholder. -/
def hasUnknownExprs (m : MappingAttr) : Bool :=
  m.exprs.any MappingExpr.hasUnknown

/-- Modelled from the spec: inverse of a mapping.  Position `j` of the
result is the first dimension of `m` that maps to `j`, and "none" when no
dimension does. -/
def inverse (m : MappingAttr) : MappingAttr :=
  ⟨m.exprs.length,
   (List.range m.use_domain_size).map (fun j =>
     match m.exprs.findIdx? (· = MappingExpr.dim j) with
     | some i => MappingExpr.dim i
     | none => MappingExpr.noneE)⟩

/-- Modelled from the spec: make a mapping surjective by replacing each
"none" expression with a fresh dimension appended to the use domain. -/
def makeSurjective (m : MappingAttr) : MappingAttr :=
  let step := fun (acc : Nat × List MappingExpr) (e : MappingExpr) =>
    match e with
    | .noneE => (acc.1 + 1, acc.2 ++ [MappingExpr.dim acc.1])
    | e => (acc.1, acc.2 ++ [e])
  let r := m.exprs.foldl step (m.use_domain_size, [])
  ⟨r.1, r.2⟩

/-- Modelled from the spec: canonicalization simplifies expressions without
changing the function represented; the model keeps mappings as they are. -/
def canonicalize (m : MappingAttr) : MappingAttr := m

/-- Modelled from the spec: drop the first `n` expressions. -/
def dropFront (n : Nat) (m : MappingAttr) : MappingAttr :=
  ⟨m.use_domain_size, m.exprs.drop n⟩

/-- Modelled from the spec: shift all dimension references right by `n`,
growing the use domain. -/
def shiftRight (n : Nat) (m : MappingAttr) : MappingAttr :=
  ⟨m.use_domain_size + n, m.exprs.map (MappingExpr.shift n)⟩

/-- Modelled from the spec: `AddPrefix`, prepending expressions in front of
the mapping. -/
def addFront (pre : List MappingExpr) (m : MappingAttr) : MappingAttr :=
  ⟨m.use_domain_size, pre ++ m.exprs⟩

/-- Pointwise `?`-unification of two expression lists; fails when any pair
fails. -/
def unifyUnknownList : List MappingExpr → List MappingExpr → Option (List MappingExpr)
  | [], [] => some []
  | a :: as, b :: bs =>
      match MappingExpr.unifyUnknown a b, unifyUnknownList as bs with
      | some u, some us => some (u :: us)
      | _, _ => none
  | _, _ => none

/-- Modelled from the spec: `MappingAttr::UnifyUnknownExprs` substitutes `?`
placeholders only; the mappings must have the same shape. -/
def unifyUnknownExprs (a b : MappingAttr) : Option MappingAttr :=
  if a.use_domain_size = b.use_domain_size then
    (unifyUnknownList a.exprs b.exprs).map (⟨a.use_domain_size, ·⟩)
  else none

/-- Modelled from the spec: `MappingAttr::Unify`; pointwise unification of
unset placeholders with the other side's concrete expressions.  Mappings of
different sizes are not unifiable and the left side is kept. -/
def unify (a b : MappingAttr) : MappingAttr :=
  if a.exprs.length = b.exprs.length then
    ⟨a.use_domain_size, a.exprs.zipWith MappingExpr.unifyE b.exprs⟩
  else a

end MappingAttr

/-- A diagnostic: an error message at a primary location, with optional
attached notes (`InFlightDiagnostic` with `attachNote`). -/
structure Diag where
  loc : Loc
  msg : String
  notes : List (Loc × String)
deriving DecidableEq, Repr

/-- A value access: a value together with a mapping from the use domain to
the value's domain (`ValueAccess`). -/
structure ValueAccess where
  value : ValueId
  mapping : MappingAttr
deriving DecidableEq, Repr

instance : Inhabited ValueAccess := ⟨⟨0, default⟩⟩

/-- Modelled from the spec: the loop nest computed by the loop-fusion
collaborator for a list of loop names: the concrete domain dimensions and
the mapping from that domain to the loops. -/
structure LoopNest where
  domain : List ValueAccess
  domain_to_loops : MappingAttr
deriving Repr

/-- Modelled from the spec: the iteration space computed for an operation by
the iteration-space collaborator: loop names, the mapping from the
operation's domain to those loops, and whether the loop nest is fully
specified. -/
structure IterationSpace where
  loop_names : List Name
  mapping : MappingAttr
  fully_specified : Bool
deriving Repr

/-- Modelled from the spec: number of leading loops common to two loop-name
lists (`NumCommonLoops`). -/
def numCommonLoops : List Name → List Name → Nat
  | a :: as, b :: bs => if a = b then numCommonLoops as bs + 1 else 0
  | _, _ => 0

/-- Modelled from the spec: the loop-fusion collaborator, reduced to the
`GetLoopNest` query used by the storage analysis.  The mapping from the loop
nest domain to the loops has exactly one expression per requested loop. -/
structure LoopFusionAnalysis where
  getLoopNest : List Name → LoopNest
  getLoopNest_size : ∀ ns, (getLoopNest ns).domain_to_loops.exprs.length = ns.length

/-- Modelled from the spec: the iteration-space collaborator, reduced to the
`Get` and `TranslateMapping` queries used by the storage analysis. -/
structure IterationSpaceAnalysis where
  get : OpId → IterationSpace
  translateMapping : OpId → OpId → MappingAttr → MappingAttr

/-- A value operand of an operation (`ValueOperand`): accessed value,
mapping, and operand position. -/
structure OperandInfo where
  value : ValueId
  mapping : MappingAttr
  position : Nat
deriving DecidableEq, Repr

/-- Read-only facts about the surrounding program consumed by the analysis:
program order and location of operations, operation domains and shapes,
defining operations and uses of values. -/
structure ProgramInfo where
  op_pos : OpId → Nat
  op_loc : OpId → Loc
  op_domain : OpId → List ValueId
  op_shape_deps : OpId → List MappingAttr
  op_value_operands : OpId → List OperandInfo
  is_compute : OpId → Bool
  value_def : ValueId → OpId
  value_result_pos : ValueId → Nat
  value_uses : ValueId → List (OpId × Nat)

/-- Operations using a value, in use order (`mlir::Value::getUsers`). -/
def ProgramInfo.value_users (pinfo : ProgramInfo) (v : ValueId) : List OpId :=
  (pinfo.value_uses v).map (·.1)

/-- An import/export operation (`FromToMemRefOp`). -/
structure ImportOp where
  id : OpId
  element_type : MlirType
  buffer_name : Name
  memref_value : ValueId
  memref_domain_size : Nat
  parallel_domain_size : Nat
deriving DecidableEq, Repr

/-- The `buffer` attribute attached to one result of a compute operation
(`BufferAttr`): memory space, optional buffer name, optional layout given as
a mapping over named loops (`NamedMappingAttr`). -/
structure NamedMapping where
  names : List Name
  mapping : MappingAttr
deriving DecidableEq, Repr

structure BufferAttr where
  space : Name
  name : Option Name
  layout : Option NamedMapping
deriving DecidableEq, Repr

/-- A compute operation with its storage annotations (`ComputeOp`). -/
structure ComputeOpInfo where
  id : OpId
  result_types : List MlirType
  results : List ValueId
  storage : List (Option BufferAttr)
deriving Repr

/-- A buffer declared by one or more storage attributes (`Buffer`,
`storage.h`).  `loc` is recorded when the buffer is first created. -/
structure Buffer where
  loc : Loc
  element_type : MlirType
  import_op : Option ImportOp := none
  loop_nest : List Name
  domain : List ValueAccess
  layout : Option MappingAttr := none
  writes : List (OpId × Nat) := []
  reads : List (OpId × Nat) := []
  values : List ValueId := []
deriving DecidableEq, Repr

namespace Buffer

/-- `Buffer::rank`: number of dimensions of the layout, when set. -/
def rank (b : Buffer) : Option Nat := b.layout.map MappingAttr.size

/-- `Buffer::is_external`: the buffer aliases an imported memref. -/
def is_external (b : Buffer) : Bool := b.import_op.isSome

/-- Buffer constructor: the loop nest is the creating operation's loop nest
and the domain is prefixed by the loop-nest domain, with access mappings
restricted to the loops of the nest. -/
def new (loc : Loc) (element_type : MlirType) (loop_names : List Name)
    (loop_nest : LoopNest) : Buffer :=
  let num_loops := loop_names.length
  { loc := loc, element_type := element_type, loop_nest := loop_names,
    domain := loop_nest.domain.map
      (fun a => ⟨a.value, a.mapping.resizeUseDomain num_loops⟩) }

/-- Resize a list to `n` entries, padding with a default entry; mirrors
`llvm::SmallVector::resize`. -/
def listResize (n : Nat) (l : List Name) : List Name :=
  l.take n ++ List.replicate (n - l.length) ""

/-- `Buffer::SetLoopNest`: truncate the loop nest to the size of the new
loop nest's domain-to-loops mapping, trim the domain to the dimensions that
remain used (loop-nest dimensions and layout dependencies), and rename the
layout accordingly. -/
def setLoopNest (ln : LoopNest) (b : Buffer) : Buffer :=
  let new_size := ln.domain_to_loops.exprs.length
  if new_size = b.loop_nest.length then b
  else
    let new_names := listResize new_size b.loop_nest
    if b.domain.isEmpty then { b with loop_nest := new_names }
    else
      let preserved : Nat → Bool := fun i =>
        decide (i < ln.domain.length) ||
          (match b.layout with
           | some l => l.dependencyMask.contains i
           | none => false)
      let idxs := (List.range b.domain.length).filter preserved
      let new_domain := idxs.map (fun i =>
        let a := b.domain.getD i default
        (⟨a.value, a.mapping.resizeUseDomain new_size⟩ : ValueAccess))
      let ren := (List.range b.domain.length).map (fun i =>
        match idxs.findIdx? (· = i) with
        | some j => MappingExpr.dim j
        | none => MappingExpr.noneE)
      let new_layout := b.layout.map
        (fun l => (MappingAttr.mk new_domain.length ren).compose l)
      { b with loop_nest := new_names, domain := new_domain, layout := new_layout }

/-- `Buffer::UnifyLayout`: set the layout if unset, otherwise unify with the
existing layout. -/
def unifyLayout (layout : MappingAttr) (b : Buffer) : Buffer :=
  match b.layout with
  | none => { b with layout := some layout }
  | some old => { b with layout := some (old.unify layout) }

/-- `Buffer::AddValue`: register a value stored in the buffer; a compute
defining operation is recorded as a write, compute users are recorded as
reads. -/
def addValue (v : ValueId) (pinfo : ProgramInfo) (b : Buffer) : Buffer :=
  let b := { b with values := b.values ++ [v] }
  let b :=
    if pinfo.is_compute (pinfo.value_def v) then
      { b with writes := b.writes ++ [(pinfo.value_def v, pinfo.value_result_pos v)] }
    else b
  { b with reads := b.reads ++ (pinfo.value_uses v).filter (fun u => pinfo.is_compute u.1) }

/-- `Buffer::AddNonePrefixToLayout`: prepend "none" placeholders in front of
the layout. -/
def addNoneFront (num_new_dims : Nat) (b : Buffer) : Buffer :=
  match b.layout with
  | some l => { b with layout := some (l.addFront (List.replicate num_new_dims .noneE)) }
  | none => b

/-- `Buffer::AppendToDomain`: extend the domain by appending, resizing the
layout's use domain. -/
def appendToDomain (new_values : List ValueAccess) (b : Buffer) : Buffer :=
  let domain := b.domain ++ new_values
  { b with domain := domain,
           layout := b.layout.map (MappingAttr.resizeUseDomain domain.length) }

end Buffer

/-- `BufferInstanceLayout`: the buffer layout as a mapping from loop-nest
domain and buffer domain, prefixed by the loop-nest dimensions. -/
def bufferInstanceLayout (b : Buffer) (fa : LoopFusionAnalysis) : MappingAttr :=
  match b.layout with
  | some l => l.addFront (fa.getLoopNest b.loop_nest).domain_to_loops.exprs
  | none => default

/-- How a value is stored (`ValueStorage`, `storage.h`): memory space,
buffer name and layout, each independently nullable. -/
structure ValueStorage where
  space : Option Name := none
  buffer_name : Option Name := none
  layout : Option MappingAttr := none
deriving DecidableEq, Repr

namespace ValueStorage

/-- `ValueStorage::MergeSpace`.  Returns the success flag together with the
resulting storage; on failure the storage is returned unchanged, mirroring
the in-place C++ semantics. -/
def mergeSpace (s : ValueStorage) (new_space : Option Name) : Bool × ValueStorage :=
  match new_space with
  | none => (true, s)
  | some n =>
    match s.space with
    | none => (true, { s with space := some n })
    | some o => (decide (o = n), s)

/-- `ValueStorage::MergeBufferName`. -/
def mergeBufferName (s : ValueStorage) (new_name : Option Name) : Bool × ValueStorage :=
  match new_name with
  | none => (true, s)
  | some n =>
    match s.buffer_name with
    | none => (true, { s with buffer_name := some n })
    | some o => (decide (o = n), s)

/-- `ValueStorage::MergeLayout`: unifies layouts by substituting `?`
expressions only. -/
def mergeLayout (s : ValueStorage) (new_layout : Option MappingAttr) : Bool × ValueStorage :=
  match new_layout with
  | none => (true, s)
  | some l =>
    match s.layout with
    | none => (true, { s with layout := some l })
    | some old =>
      match MappingAttr.unifyUnknownExprs l old with
      | none => (false, s)
      | some u => (true, { s with layout := some u })

/-- The three field merges performed in sequence by `UpdateStorage`,
stopping at the first failure. -/
def mergeAll (s : ValueStorage) (new : ValueStorage) : Bool × ValueStorage :=
  let r1 := mergeSpace s new.space
  if !r1.1 then (false, r1.2)
  else
    let r2 := mergeBufferName r1.2 new.buffer_name
    if !r2.1 then (false, r2.2)
    else mergeLayout r2.2 new.layout

/-- `ValueStorage::AddUnknownPrefixToLayout`: prepend `?` placeholders in
front of the layout. -/
def addUnknownFront (num_new_dims : Nat) (s : ValueStorage) : ValueStorage :=
  match s.layout with
  | some l =>
      { s with layout := some (l.addFront (List.replicate num_new_dims .unknownE)) }
  | none => s

/-- `ValueStorage::Map` (operation form): convert a storage from the domain
of `from_op` to the domain of `to_op` given a mapping from the domain of
`to_op` to the domain of `from_op`. -/
def map (s : ValueStorage) (from_op to_op : OpId) (mapping : MappingAttr)
    (isa : IterationSpaceAnalysis) (pinfo : ProgramInfo) : ValueStorage :=
  let layout :=
    match s.layout with
    | none => none
    | some l =>
      let domain_mapping :=
        (mapping.resize (pinfo.op_domain from_op).length).resizeUseDomain
          (pinfo.op_domain to_op).length
      let iter_space_mapping := isa.translateMapping to_op from_op domain_mapping
      some ((iter_space_mapping.compose l).canonicalize)
  ⟨s.space, s.buffer_name, layout⟩

/-- `ValueStorage::Map` (operand form). -/
def mapOperand (s : ValueStorage) (owner : OpId) (operand : OperandInfo)
    (isa : IterationSpaceAnalysis) (pinfo : ProgramInfo) : ValueStorage :=
  s.map (pinfo.value_def operand.value) owner operand.mapping isa pinfo

end ValueStorage

/-- Lookup in the buffer table (`buffers_.find`). -/
def lookupBuffer (n : Name) (m : List (Name × Buffer)) : Option Buffer :=
  (m.find? (fun p => decide (p.1 = n))).map (·.2)

/-- Replace the entry for a buffer name in the buffer table. -/
def setBuffer (n : Name) (b : Buffer) (m : List (Name × Buffer)) : List (Name × Buffer) :=
  m.map (fun p => if p.1 = n then (p.1, b) else p)

/-- `DenseMap::try_emplace`: construct and insert the buffer only when the
name is not yet present, and return the entry for the name. -/
def tryEmplace (n : Name) (mk : Unit → Buffer) (m : List (Name × Buffer)) :
    Buffer × List (Name × Buffer) :=
  match lookupBuffer n m with
  | some b => (b, m)
  | none =>
    let b := mk ()
    (b, m ++ [(n, b)])

/-- `GetBufferLayout`: the layout of a buffer attribute re-expressed as a
mapping from the iteration space of the operation to buffer dimensions. -/
def getBufferLayout (op : OpId) (buffer : BufferAttr) (isa : IterationSpaceAnalysis) :
    Option MappingAttr :=
  match buffer.layout with
  | none => none
  | some nm =>
    let iter_space := isa.get op
    let init := List.replicate nm.mapping.use_domain_size MappingExpr.noneE
    let exprs := nm.names.enum.foldl
      (fun acc p =>
        match iter_space.loop_names.findIdx? (fun x => decide (x = p.2)) with
        | some pos => acc.set p.1 (MappingExpr.dim pos)
        | none => acc)
      init
    some ((MappingAttr.mk iter_space.mapping.exprs.length exprs).compose nm.mapping)

/-- Modelled from the spec: `UnificationConstraints` (mapping algebra).
Corresponding expression pairs from the new and old layout must either
already agree, or record an equality constraint for a dimension of the new
side; placeholders constrain nothing, and any other disagreement fails. -/
def unificationConstraints : MappingExpr → MappingExpr → List MappingExpr →
    Option (List MappingExpr)
  | _, .unknownE, cs => some cs
  | _, .noneE, cs => some cs
  | .unknownE, _, cs => some cs
  | .noneE, _, cs => some cs
  | .dim i, e, cs =>
      (match cs.getD i .noneE with
       | .noneE => some (cs.set i e)
       | c => if c = e then some cs else none)
  | .stripe a f1, .stripe b f2, cs =>
      if f1 = f2 then unificationConstraints a b cs else none
  | .unstripe a f1, .unstripe b f2, cs =>
      if f1 = f2 then unificationConstraints a b cs else none
  | _, _, _ => none

/-- Modelled from the spec: `ResolveUnificationConstraint` (mapped-domain
collaborator).  An unresolved constraint is resolved to the position of the
dimension access in the buffer domain, appending the access when absent; a
resolved constraint must designate the same access, otherwise this is a
hard error. -/
def resolveUnificationConstraint (access : ValueAccess) (c : MappingExpr)
    (dom : List ValueAccess) : Option (MappingExpr × List ValueAccess) :=
  match c with
  | .noneE =>
      (match dom.findIdx? (fun a => decide (a = access)) with
       | some p => some (.dim p, dom)
       | none => some (.dim dom.length, dom ++ [access]))
  | .unknownE =>
      (match dom.findIdx? (fun a => decide (a = access)) with
       | some p => some (.dim p, dom)
       | none => some (.dim dom.length, dom ++ [access]))
  | .dim p => if dom.getD p default = access then some (.dim p, dom) else none
  | _ => none

/-- The mapping `concat_domains_to_layout` of `UnifyBufferShape`: the new
use's layout re-expressed over the concatenation of the operation's
loop-nest domain and the operation's own domain. -/
def concatDomainsToLayout (op : OpId) (pinfo : ProgramInfo) (layout : MappingAttr)
    (op_iter_space : IterationSpace) (fa : LoopFusionAnalysis) : MappingAttr :=
  let op_loop_nest := fa.getLoopNest op_iter_space.loop_names
  let shift := op_loop_nest.domain.length
  let op_domain := pinfo.op_domain op
  let concat_domain_size := shift + op_domain.length
  let concat_exprs := op_loop_nest.domain_to_loops.exprs ++
    ((op_iter_space.mapping.shiftRight shift).exprs.drop
      op_loop_nest.domain_to_loops.exprs.length)
  ((MappingAttr.mk concat_domain_size concat_exprs).compose layout).canonicalize

/-- The unification-constraint computation of `UnifyBufferShape`: dimensions
used by the buffer loop nest must be exactly the same for both uses, and
corresponding expression pairs of the old layout and the new layout
contribute constraints. -/
def bufferConstraints (op : OpId) (pinfo : ProgramInfo) (layout : MappingAttr)
    (op_iter_space : IterationSpace) (fa : LoopFusionAnalysis) (b : Buffer) :
    Option (List MappingExpr) :=
  let buffer_loop_nest := fa.getLoopNest b.loop_nest
  let concat_domain_size := (fa.getLoopNest op_iter_space.loop_names).domain.length +
    (pinfo.op_domain op).length
  let cdl := concatDomainsToLayout op pinfo layout op_iter_space fa
  let constraints0 := (List.range concat_domain_size).map
    (fun i => if i < buffer_loop_nest.domain.length then MappingExpr.dim i
              else MappingExpr.noneE)
  match b.layout with
  | none => some constraints0
  | some old =>
    (old.exprs.zip cdl.exprs).foldlM
      (fun cs p => unificationConstraints p.2 p.1 cs) constraints0

/-- The constraint-resolution loop of `UnifyBufferShape`: for every
dimension indexed by the new layout, build the dimension access (from the
loop-nest domain or from the operation domain), restrict it to the buffer
loop nest and resolve its constraint against the buffer domain. -/
def resolveConstraints (op : OpId) (pinfo : ProgramInfo)
    (op_iter_space : IterationSpace) (fa : LoopFusionAnalysis) (b : Buffer)
    (cdl : MappingAttr) (constraints : List MappingExpr) :
    Option (List MappingExpr × List ValueAccess) :=
  let op_loop_nest := fa.getLoopNest op_iter_space.loop_names
  let shift := op_loop_nest.domain.length
  let op_domain := pinfo.op_domain op
  let step := fun (acc : Option (List MappingExpr × List ValueAccess)) (dimension : Nat) =>
    match acc with
    | none => none
    | some (cs, dom) =>
      let access0 : ValueAccess :=
        if dimension < shift then op_loop_nest.domain.getD dimension default
        else
          ⟨op_domain.getD (dimension - shift) 0,
           op_iter_space.mapping.inverse.compose
             (((pinfo.op_shape_deps op).getD (dimension - shift) default).resizeUseDomain
               op_domain.length)⟩
      let access : ValueAccess :=
        ⟨access0.value, access0.mapping.resizeUseDomain b.loop_nest.length⟩
      match resolveUnificationConstraint access (cs.getD dimension .noneE) dom with
      | some (c, dom2) => some (cs.set dimension c, dom2)
      | none => none
  cdl.setBitsAsc.foldl step (some (constraints, b.domain))

/-- `UnifyBufferShape`: unify the shape of a buffer with the shape implied
by one of its uses; extends the buffer domain and unifies the buffer layout
with the new use's layout via unification with equality constraints. -/
def unifyBufferShape (buffer_name : Name) (op : OpId) (pinfo : ProgramInfo)
    (layout : MappingAttr) (op_iter_space : IterationSpace)
    (fa : LoopFusionAnalysis) (b : Buffer) : Except Diag Buffer :=
  let cdl := concatDomainsToLayout op pinfo layout op_iter_space fa
  match bufferConstraints op pinfo layout op_iter_space fa b with
  | none => .error ⟨pinfo.op_loc op,
      "buffer " ++ buffer_name ++ " layout is incompatible with previous occurences", []⟩
  | some constraints =>
    match resolveConstraints op pinfo op_iter_space fa b cdl constraints with
    | none => .error ⟨pinfo.op_loc op,
        "buffer " ++ buffer_name ++ " unification of layouts failed", []⟩
    | some (cs, dom) =>
      let b2 := b.appendToDomain (dom.drop b.domain.length)
      .ok (b2.unifyLayout ((MappingAttr.mk b2.domain.length cs).compose cdl))

/-- `TrimBufferLoopNestForAccess`: trim the buffer loop nest so that only
common loops that are not indexed by the layout remain; the layout is
ignored when null. -/
def trimBufferLoopNestForAccess (iter_space : IterationSpace)
    (layout : Option MappingAttr) (fa : LoopFusionAnalysis) (b : Buffer) : Buffer :=
  let max0 := numCommonLoops iter_space.loop_names b.loop_nest
  let max_loop_nest :=
    match layout with
    | none => max0
    | some l =>
      match l.firstDep with
      | some f => if f < max0 then f else max0
      | none => max0
  Buffer.setLoopNest (fa.getLoopNest (iter_space.loop_names.take max_loop_nest)) b

/-- `DeclareBuffer`: declare the buffer named by the storage attribute of
one result of a compute operation, checking element type and rank against a
previous occurence, trimming the loop nest for this access and unifying the
layouts. -/
def declareBuffer (op : ComputeOpInfo) (result : Nat) (attr : Option BufferAttr)
    (fa : LoopFusionAnalysis) (isa : IterationSpaceAnalysis) (pinfo : ProgramInfo)
    (buffer_map : List (Name × Buffer)) : Except Diag (List (Name × Buffer)) :=
  match attr with
  | none => .ok buffer_map
  | some a =>
    match a.name with
    | none => .ok buffer_map
    | some name =>
      let element_type := op.result_types.getD result ""
      let iter_space := isa.get op.id
      let loop_nest := fa.getLoopNest iter_space.loop_names
      let em := tryEmplace name
        (fun _ => Buffer.new (pinfo.op_loc op.id) element_type iter_space.loop_names
          loop_nest)
        buffer_map
      let buffer := em.1
      if buffer.element_type ≠ element_type then
        .error ⟨pinfo.op_loc op.id,
          "buffer " ++ name ++ " has different element type than in previous occurence",
          [(buffer.loc, "previous occurence here")]⟩
      else
        let layout := getBufferLayout op.id a isa
        let rank_conflict :=
          match buffer.rank, layout with
          | some r, some l => decide (r ≠ l.exprs.length)
          | _, _ => false
        if rank_conflict then
          .error ⟨pinfo.op_loc op.id,
            "buffer " ++ name ++ " rank differs from previous occurence",
            [(buffer.loc, "previous occurence here")]⟩
        else
          let buffer2 := trimBufferLoopNestForAccess iter_space layout fa buffer
          match layout with
          | none => .ok (setBuffer name buffer2 em.2)
          | some l =>
            (unifyBufferShape name op.id pinfo l iter_space fa buffer2).map
              (fun b => setBuffer name b em.2)

/-- Declaration of an external buffer imported by a from/to-memref
operation: the buffer derives its layout from the operation's own
domain-to-memref mapping. -/
def declareExternalBuffer (op : ImportOp) (fa : LoopFusionAnalysis)
    (isa : IterationSpaceAnalysis) (pinfo : ProgramInfo)
    (buffers : List (Name × Buffer)) : Except Diag (List (Name × Buffer)) :=
  let iter_space := isa.get op.id
  let loop_nest := fa.getLoopNest iter_space.loop_names
  if (lookupBuffer op.buffer_name buffers).isSome then
    .error ⟨pinfo.op_loc op.id, "buffer name is already used", []⟩
  else
    let b0 := Buffer.new (pinfo.op_loc op.id) op.element_type iter_space.loop_names
      loop_nest
    let b := { b0 with import_op := some op }
    let rank := op.memref_domain_size
    let domain_to_layout := (MappingAttr.getIdentity rank).shiftRight
      op.parallel_domain_size
    let layout := iter_space.mapping.inverse.compose domain_to_layout
    (unifyBufferShape op.buffer_name op.id pinfo layout iter_space fa b).map
      (fun b2 => buffers ++ [(op.buffer_name, b2)])

/-- A Sair program, as walked by buffer declaration: its import operations
and its compute operations in program order. -/
structure Program where
  import_ops : List ImportOp
  compute_ops : List ComputeOpInfo

/-- The final loop of `DeclareBuffers`: every buffer whose layout is set
must be fully specified (no leftover "none" placeholders); the error is
reported at the buffer's declaration location. -/
def checkLayoutsFullySpecified (bs : List (Name × Buffer)) : Except Diag Unit :=
  match bs.find? (fun p =>
      match p.2.layout with
      | some l => l.hasNoneExprs
      | none => false) with
  | some p => .error ⟨p.2.loc, "buffer " ++ p.1 ++ " layout is not fully specified", []⟩
  | none => .ok ()

/-- `DeclareBuffers`: declare external buffers, then internal buffers for
every storage attribute of every compute operation, then check that all
buffer layouts are fully specified. -/
def declareBuffers (prog : Program) (isa : IterationSpaceAnalysis)
    (fa : LoopFusionAnalysis) (pinfo : ProgramInfo) :
    Except Diag (List (Name × Buffer)) := do
  let bs1 ← prog.import_ops.foldlM
    (fun m op => declareExternalBuffer op fa isa pinfo m) []
  let bs2 ← prog.compute_ops.foldlM
    (fun m op =>
      (List.range op.results.length).foldlM
        (fun m2 i => declareBuffer op i (op.storage.getD i none) fa isa pinfo m2) m)
    bs1
  let _ ← checkLayoutsFullySpecified bs2
  pure bs2

/-- `UpdateStorage`: update the storage information of a value.  When the
buffer field newly becomes set, registers the value as a use of the buffer
and trims the buffer loop nest against the defining operation's and every
user's iteration space; then merges the three fields, failing with a
conflict diagnostic at the defining operation. -/
def updateStorage (value : ValueId) (new_storage : ValueStorage)
    (fa : LoopFusionAnalysis) (isa : IterationSpaceAnalysis) (pinfo : ProgramInfo)
    (storage : ValueStorage) (buffers : List (Name × Buffer)) :
    Except Diag (ValueStorage × List (Name × Buffer)) :=
  let buffers2 :=
    match storage.buffer_name, new_storage.buffer_name with
    | none, some n =>
      (match lookupBuffer n buffers with
       | some b =>
         let b1 := b.addValue value pinfo
         let b2 := trimBufferLoopNestForAccess (isa.get (pinfo.value_def value)) none fa b1
         let b3 := (pinfo.value_users value).foldl
           (fun bb u => trimBufferLoopNestForAccess (isa.get u) none fa bb) b2
         setBuffer n b3 buffers
       | none => buffers)
    | _, _ => buffers
  let def_loc := pinfo.op_loc (pinfo.value_def value)
  let r1 := storage.mergeSpace new_storage.space
  if !r1.1 then .error ⟨def_loc, "conflicting memory spaces", []⟩
  else
    let r2 := r1.2.mergeBufferName new_storage.buffer_name
    if !r2.1 then .error ⟨def_loc, "conflicting buffer names", []⟩
    else
      let r3 := r2.2.mergeLayout new_storage.layout
      if !r3.1 then .error ⟨def_loc, "conflicting layouts", []⟩
      else .ok (r3.2, buffers2)

/-- The `new_min` computation of `CheckMallocInsertionPoint`: starting from
the smaller of the two loop-nest sizes, decrease while the loop names at the
previous position differ. -/
def newMinLoops : Nat → List Name → List Name → Nat
  | 0, _, _ => 0
  | n + 1, w, o => if o.getD n "" = w.getD n "" then n + 1 else newMinLoops n w o

/-- `CheckMallocInsertionPoint`: ensure a malloc operation can be inserted
for the buffer, increasing `min_num_loops` as needed.  Walks the
program-order first write and, for every used dimension, checks that the
dimension is defined before the first write and that its operands do not
force a nesting deeper than the buffer's loop nest. -/
def checkMallocInsertionPoint (buffer_name : Name) (b : Buffer)
    (used_dimensions : List Nat) (isa : IterationSpaceAnalysis)
    (pinfo : ProgramInfo) (min_num_loops : Nat) : Except Diag Nat :=
  match b.writes with
  | [] => .ok min_num_loops
  | w0 :: rest =>
    let first_write := (rest.foldl
      (fun fw p => if pinfo.op_pos p.1 < pinfo.op_pos fw.1 then p else fw) w0).1
    let write_loops := (isa.get first_write).loop_names
    used_dimensions.foldlM
      (fun mn dim =>
        let dimension_op := pinfo.value_def (b.domain.getD dim default).value
        if pinfo.op_pos first_write < pinfo.op_pos dimension_op then
          .error ⟨pinfo.op_loc first_write,
            "buffer " ++ buffer_name ++ " is used before one of its dimensions is defined",
            [(pinfo.op_loc dimension_op, "dimension defined here")]⟩
        else
          (pinfo.op_value_operands dimension_op).foldlM
            (fun mn2 operand =>
              let defining_op := pinfo.value_def operand.value
              let operand_loops := (isa.get defining_op).loop_names
              let new_min := newMinLoops (min write_loops.length operand_loops.length)
                write_loops operand_loops
              if new_min > b.loop_nest.length then
                .error ⟨pinfo.op_loc first_write,
                  "buffer " ++ buffer_name ++
                    " depends on a dimension that is defined after the buffer is allocated",
                  [(pinfo.op_loc dimension_op, "dimension defined here")]⟩
              else .ok (max mn2 new_min))
            mn)
      min_num_loops

/-- Modelled from the spec: the smallest domain size making the dependency
of a layout dimension resolvable (`MappingExpr::AccessedShape` composed with
`MinDomainSize` over a hyper-rectangular shape). -/
def accessedShapeMinDomain (inverse : MappingAttr) (e : MappingExpr) : Nat :=
  (MappingAttr.mk inverse.exprs.length [MappingExpr.subst inverse.exprs e]).minDomainSize

/-- Per-buffer body of `StorageAnalysis::VerifyAndMinimizeBufferLoopNests`:
verify that the layout only depends on loops the buffer can be nested in,
compute the minimal legal loop-nest size and trim the loop nest to it
(external buffers are never trimmed). -/
def verifyAndMinimizeBuffer (name : Name) (b : Buffer) (fa : LoopFusionAnalysis)
    (isa : IterationSpaceAnalysis) (pinfo : ProgramInfo) : Except Diag Buffer :=
  match b.layout with
  | none => .ok b
  | some l =>
    let used := l.setBitsAsc
    if used.any (fun dim => (b.domain.getD dim default).mapping.hasNoneExprs) then
      .error ⟨b.loc, "buffer " ++ name ++ " layout depends on loops it cannot be nested in", []⟩
    else
      let min1 := used.foldl
        (fun acc dim => max acc ((b.domain.getD dim default).mapping.minDomainSize)) 0
      let mapping := bufferInstanceLayout b fa
      let inverse := mapping.inverse
      let mins2 := l.exprs.map (accessedShapeMinDomain inverse)
      if mins2.any (fun n => n > b.loop_nest.length) then
        .error ⟨b.loc, "buffer " ++ name ++ " layout depends on loops it cannot be nested in", []⟩
      else
        let min_num_loops := mins2.foldl max min1
        if b.is_external then .ok b
        else
          match checkMallocInsertionPoint name b used isa pinfo min_num_loops with
          | .error d => .error d
          | .ok mn =>
            .ok (Buffer.setLoopNest (fa.getLoopNest (b.loop_nest.take mn)) b)

/-- `StorageAnalysis::VerifyAndMinimizeBufferLoopNests` over the buffer
table, stopping at the first failure. -/
def verifyAndMinimizeBufferLoopNests (fa : LoopFusionAnalysis)
    (isa : IterationSpaceAnalysis) (pinfo : ProgramInfo) :
    List (Name × Buffer) → Except Diag (List (Name × Buffer))
  | [] => .ok []
  | p :: ps =>
    match verifyAndMinimizeBuffer p.1 p.2 fa isa pinfo with
    | .error d => .error d
    | .ok b2 =>
      match verifyAndMinimizeBufferLoopNests fa isa pinfo ps with
      | .error d => .error d
      | .ok rest => .ok ((p.1, b2) :: rest)

/-- Inner loop of the external-buffer ordering check of
`StorageAnalysis::Init`: every write must come after the operation defining
the imported memref. -/
def checkWritesBeforeDef (name : Name) (def_op : OpId) (pinfo : ProgramInfo) :
    List (OpId × Nat) → Except Diag Unit
  | [] => .ok ()
  | w :: ws =>
    if pinfo.op_pos w.1 < pinfo.op_pos def_op then
      .error ⟨pinfo.op_loc w.1, "buffer " ++ name ++ " used before it is defined",
        [(pinfo.op_loc def_op, "buffer defined here")]⟩
    else checkWritesBeforeDef name def_op pinfo ws

/-- The external-buffer ordering check of `StorageAnalysis::Init`: for every
external buffer, writes must occure after the buffer is defined; only
writes are checked as reads always occure after writes. -/
def checkExternalWrites (pinfo : ProgramInfo) : List (Name × Buffer) → Except Diag Unit
  | [] => .ok ()
  | (name, b) :: bs =>
    match b.import_op with
    | none => checkExternalWrites pinfo bs
    | some imp =>
      match checkWritesBeforeDef name (pinfo.value_def imp.memref_value) pinfo b.writes with
      | .ok _ => checkExternalWrites pinfo bs
      | .error d => .error d

/-- `CommunicationVolume`: mapping from the domain of a value to the
sub-domain that is not covered by the loops common to the definition and use
iteration spaces. -/
def communicationVolume (value_rank : Nat) (def_is use_is : IterationSpace) :
    MappingAttr :=
  let num_common_loops := numCommonLoops def_is.loop_names use_is.loop_names
  let domain_to_common_loops :=
    (def_is.mapping.resizeUseDomain value_rank).resize num_common_loops
  ((domain_to_common_loops.inverse.makeSurjective).inverse).dropFront num_common_loops

/-- `VerifyCommunicationVolume` (per-operand form): communication between
the producer and the user of an operand must occur within the same loop
iteration or along dimensions materialized in memory.  Deferred when either
iteration space is not fully specified or the layout is unresolved. -/
def verifyCommunicationVolume (loc : Loc) (use_iter_space : IterationSpace)
    (operand : ValueAccess) (isa : IterationSpaceAnalysis) (pinfo : ProgramInfo)
    (getStorage : ValueId → ValueStorage) : Except Diag Unit :=
  let def_op := pinfo.value_def operand.value
  let def_iter_space := isa.get def_op
  if !use_iter_space.fully_specified || !def_iter_space.fully_specified then .ok ()
  else
    let storage := getStorage operand.value
    match storage.layout with
    | none => .ok ()
    | some l =>
      let cv := communicationVolume operand.mapping.exprs.length def_iter_space
        use_iter_space
      let layout_to_operand := (def_iter_space.mapping.compose l).inverse
      let layout_to_communication_volume := (layout_to_operand.compose cv).canonicalize
      if layout_to_communication_volume.hasNoneExprs then
        .error ⟨loc,
          "operand storage must cover all operand dimensions that are not covered by loops common to both operand and user",
          [(pinfo.op_loc def_op, "operand defined here")]⟩
      else .ok ()

/-- Inner loop of the in-place update check of `VerifyStorages`: every
operand stored in the same buffer as the result must, mapped to the result's
domain, have the same layout. -/
def checkInPlaceOperands (op_id : OpId) (result_storage : ValueStorage) (bn : Name)
    (isa : IterationSpaceAnalysis) (pinfo : ProgramInfo)
    (getStorage : ValueId → ValueStorage) : List OperandInfo → Except Diag Unit
  | [] => .ok ()
  | operand :: rest =>
    let operand_storage := getStorage operand.value
    if operand_storage.buffer_name ≠ some bn then
      checkInPlaceOperands op_id result_storage bn isa pinfo getStorage rest
    else
      let mapped_storage := operand_storage.mapOperand op_id operand isa pinfo
      if mapped_storage.layout ≠ result_storage.layout then
        .error ⟨pinfo.op_loc op_id,
          "in-place update of buffer " ++ bn ++
            " must use the same layout in input and output", []⟩
      else checkInPlaceOperands op_id result_storage bn isa pinfo getStorage rest

/-- Per-result loop of the in-place update check of `VerifyStorages`. -/
def checkInPlaceResults (op : ComputeOpInfo) (isa : IterationSpaceAnalysis)
    (pinfo : ProgramInfo) (getStorage : ValueId → ValueStorage) :
    List ValueId → Except Diag Unit
  | [] => .ok ()
  | r :: rs =>
    let result_storage := getStorage r
    match result_storage.buffer_name with
    | none => checkInPlaceResults op isa pinfo getStorage rs
    | some bn =>
      match checkInPlaceOperands op.id result_storage bn isa pinfo getStorage
          (pinfo.op_value_operands op.id) with
      | .ok _ => checkInPlaceResults op isa pinfo getStorage rs
      | .error d => .error d

/-- The in-place update consistency check of `VerifyStorages` for one
compute operation. -/
def checkInPlaceOp (op : ComputeOpInfo) (isa : IterationSpaceAnalysis)
    (pinfo : ProgramInfo) (getStorage : ValueId → ValueStorage) : Except Diag Unit :=
  checkInPlaceResults op isa pinfo getStorage op.results

/-- Pointwise refinement of expression lists; see `MappingExpr.refines`. -/
def refinesList : List MappingExpr → List MappingExpr → Bool
  | [], [] => true
  | o :: os, n :: ns => MappingExpr.refines o n && refinesList os ns
  | _, _ => false

/-- The mapping `new` refines the mapping `old`: same shape, and it differs
from `old` only below `?` placeholders of `old`. -/
def MappingAttr.refinesB (old new : MappingAttr) : Bool :=
  decide (old.use_domain_size = new.use_domain_size) && refinesList old.exprs new.exprs

/-- A trivial loop-fusion analysis used to instantiate theorems on concrete
inputs. -/
def trivialFA : LoopFusionAnalysis :=
  ⟨fun ns => ⟨[], ⟨ns.length, ns.map (fun _ => MappingExpr.noneE)⟩⟩, by intro ns; simp⟩

/-- A trivial iteration-space analysis used to instantiate theorems on
concrete inputs. -/
def trivialISA : IterationSpaceAnalysis :=
  ⟨fun _ => ⟨[], ⟨0, []⟩, true⟩, fun _ _ m => m⟩

/-- A trivial program-information record used to instantiate theorems on
concrete inputs. -/
def trivialPinfo : ProgramInfo :=
  ⟨fun i => i, fun i => i, fun _ => [], fun _ => [], fun _ => [], fun _ => true,
   fun _ => 0, fun _ => 0, fun _ => []⟩

end SairStorage

namespace SairStorage

theorem unifyUnknown_refl (e : MappingExpr) : e.unifyUnknown e = some e := by
  induction e with
  | dim i => simp [MappingExpr.unifyUnknown]
  | noneE => rfl
  | unknownE => rfl
  | stripe e f ih => simp [MappingExpr.unifyUnknown, ih]
  | unstripe e f ih => simp [MappingExpr.unifyUnknown, ih]

theorem refines_refl (e : MappingExpr) : e.refines e = true := by
  induction e with
  | dim i => simp [MappingExpr.refines]
  | noneE => rfl
  | unknownE => rfl
  | stripe e f ih => simp [MappingExpr.refines, ih]
  | unstripe e f ih => simp [MappingExpr.refines, ih]

theorem unifyUnknown_refines :
    ∀ (a b u : MappingExpr), a.unifyUnknown b = some u → b.refines u = true
  | .unknownE, b, u, h => by
      simp [MappingExpr.unifyUnknown] at h
      subst h
      exact refines_refl b
  | .dim i, .unknownE, u, h => by
      simp [MappingExpr.unifyUnknown] at h
      subst h
      rfl
  | .dim i, .dim j, u, h => by
      simp [MappingExpr.unifyUnknown] at h
      obtain ⟨hij, hu⟩ := h
      subst hu
      simp [MappingExpr.refines, hij]
  | .noneE, .unknownE, u, h => by
      simp [MappingExpr.unifyUnknown] at h
      subst h
      rfl
  | .noneE, .noneE, u, h => by
      simp [MappingExpr.unifyUnknown] at h
      subst h
      rfl
  | .stripe e f, .unknownE, u, h => by
      simp [MappingExpr.unifyUnknown] at h
      subst h
      rfl
  | .stripe e f, .stripe e' f', u, h => by
      simp [MappingExpr.unifyUnknown] at h
      obtain ⟨hf, u', hu', rfl⟩ := h
      simp [MappingExpr.refines, hf, unifyUnknown_refines e e' u' hu']
  | .unstripe e f, .unknownE, u, h => by
      simp [MappingExpr.unifyUnknown] at h
      subst h
      rfl
  | .unstripe e f, .unstripe e' f', u, h => by
      simp [MappingExpr.unifyUnknown] at h
      obtain ⟨hf, u', hu', rfl⟩ := h
      simp [MappingExpr.refines, hf, unifyUnknown_refines e e' u' hu']
  | .dim i, .noneE, u, h => by simp [MappingExpr.unifyUnknown] at h
  | .dim i, .stripe e f, u, h => by simp [MappingExpr.unifyUnknown] at h
  | .dim i, .unstripe e f, u, h => by simp [MappingExpr.unifyUnknown] at h
  | .noneE, .dim j, u, h => by simp [MappingExpr.unifyUnknown] at h
  | .noneE, .stripe e f, u, h => by simp [MappingExpr.unifyUnknown] at h
  | .noneE, .unstripe e f, u, h => by simp [MappingExpr.unifyUnknown] at h
  | .stripe e f, .dim j, u, h => by simp [MappingExpr.unifyUnknown] at h
  | .stripe e f, .noneE, u, h => by simp [MappingExpr.unifyUnknown] at h
  | .stripe e f, .unstripe e' f', u, h => by simp [MappingExpr.unifyUnknown] at h
  | .unstripe e f, .dim j, u, h => by simp [MappingExpr.unifyUnknown] at h
  | .unstripe e f, .noneE, u, h => by simp [MappingExpr.unifyUnknown] at h
  | .unstripe e f, .stripe e' f', u, h => by simp [MappingExpr.unifyUnknown] at h

theorem unifyUnknownList_refl (l : List MappingExpr) :
    MappingAttr.unifyUnknownList l l = some l := by
  induction l with
  | nil => rfl
  | cons e es ih => simp [MappingAttr.unifyUnknownList, unifyUnknown_refl, ih]

theorem unifyUnknownList_refines :
    ∀ (as bs us : List MappingExpr),
      MappingAttr.unifyUnknownList as bs = some us → refinesList bs us = true
  | [], [], us, h => by
      simp [MappingAttr.unifyUnknownList] at h
      subst h
      rfl
  | [], _ :: _, us, h => by simp [MappingAttr.unifyUnknownList] at h
  | _ :: _, [], us, h => by simp [MappingAttr.unifyUnknownList] at h
  | a :: as, b :: bs, us, h => by
      unfold MappingAttr.unifyUnknownList at h
      cases h1 : a.unifyUnknown b with
      | none => rw [h1] at h; simp at h
      | some u =>
        rw [h1] at h
        cases h2 : MappingAttr.unifyUnknownList as bs with
        | none => rw [h2] at h; simp at h
        | some us' =>
          rw [h2] at h
          simp at h
          subst h
          simp [refinesList, unifyUnknown_refines a b u h1,
            unifyUnknownList_refines as bs us' h2]

theorem unifyUnknownExprs_refl (m : MappingAttr) :
    MappingAttr.unifyUnknownExprs m m = some m := by
  simp [MappingAttr.unifyUnknownExprs, unifyUnknownList_refl]

/-- Claim C1: for every value storage, once the space or buffer-name field
is non-null, merging succeeds and leaves the field unchanged exactly when
the new value is null or equal to the current one, and fails without
modifying the field otherwise; for the layout field, merging a null layout
or the stored layout itself is the identity and succeeds, a successful merge
only refines `?` placeholder expressions of the stored layout, and a failed
merge leaves the storage unchanged. -/
theorem claim1_merge_monotonicity (s : ValueStorage) :
    (∀ sp, s.space = some sp → ∀ v,
        (s.mergeSpace v).2 = s ∧ ((s.mergeSpace v).1 = true ↔ v = none ∨ v = some sp))
  ∧ (∀ bn, s.buffer_name = some bn → ∀ v,
        (s.mergeBufferName v).2 = s ∧
          ((s.mergeBufferName v).1 = true ↔ v = none ∨ v = some bn))
  ∧ (∀ l, s.layout = some l →
        s.mergeLayout none = (true, s)
      ∧ s.mergeLayout (some l) = (true, s)
      ∧ (∀ l', (s.mergeLayout (some l')).1 = false → (s.mergeLayout (some l')).2 = s)
      ∧ (∀ l' s', s.mergeLayout (some l') = (true, s') →
            ∃ u, s' = { s with layout := some u } ∧ l.refinesB u = true)) := by
  obtain ⟨sp0, bn0, ly0⟩ := s
  refine ⟨?_, ?_, ?_⟩
  · rintro sp hsp v
    simp only at hsp
    subst hsp
    cases v with
    | none => simp [ValueStorage.mergeSpace]
    | some n =>
      constructor
      · simp [ValueStorage.mergeSpace]
      · simp [ValueStorage.mergeSpace, eq_comm]
  · rintro bn hbn v
    simp only at hbn
    subst hbn
    cases v with
    | none => simp [ValueStorage.mergeBufferName]
    | some n =>
      constructor
      · simp [ValueStorage.mergeBufferName]
      · simp [ValueStorage.mergeBufferName, eq_comm]
  · rintro l hl
    simp only at hl
    subst hl
    refine ⟨rfl, ?_, ?_, ?_⟩
    · simp [ValueStorage.mergeLayout, unifyUnknownExprs_refl]
    · intro l'
      simp only [ValueStorage.mergeLayout]
      cases h : MappingAttr.unifyUnknownExprs l' l with
      | none => simp
      | some u => simp
    · intro l' s'
      simp only [ValueStorage.mergeLayout]
      cases h : MappingAttr.unifyUnknownExprs l' l with
      | none => simp
      | some u =>
        simp only [Prod.mk.injEq, and_imp]
        intro _ hs
        subst hs
        refine ⟨u, rfl, ?_⟩
        unfold MappingAttr.unifyUnknownExprs at h
        by_cases hud : l'.use_domain_size = l.use_domain_size
        · rw [if_pos hud] at h
          cases h2 : MappingAttr.unifyUnknownList l'.exprs l.exprs with
          | none => rw [h2] at h; simp at h
          | some us =>
            rw [h2] at h
            simp at h
            subst h
            simp [MappingAttr.refinesB, hud, unifyUnknownList_refines _ _ _ h2]
        · rw [if_neg hud] at h; simp at h

/-- Witness for claim C1 at a concrete storage with all fields set. -/
theorem claim1_merge_monotonicity_witness :
    (⟨some "memory", some "b", some ⟨1, [.dim 0]⟩⟩ : ValueStorage).space = some "memory"
  ∧ ((ValueStorage.mergeSpace ⟨some "memory", some "b", some ⟨1, [.dim 0]⟩⟩
        (some "register")).1 = true
      ↔ (some "register" : Option Name) = none ∨ some "register" = some "memory") :=
  ⟨rfl,
   ((claim1_merge_monotonicity ⟨some "memory", some "b", some ⟨1, [.dim 0]⟩⟩).1
      "memory" rfl (some "register")).2⟩

/-- Claim C10: merging a null field is the identity, and merging a
default-constructed (all-null) value storage into any existing storage
succeeds and is a no-op. -/
theorem claim10_merge_null_identity (s : ValueStorage) :
    s.mergeSpace none = (true, s)
  ∧ s.mergeBufferName none = (true, s)
  ∧ s.mergeLayout none = (true, s)
  ∧ s.mergeAll {} = (true, s) := by
  refine ⟨rfl, rfl, rfl, ?_⟩
  simp [ValueStorage.mergeAll, ValueStorage.mergeSpace, ValueStorage.mergeBufferName,
    ValueStorage.mergeLayout]

end SairStorage

namespace SairStorage

theorem compose_size (a b : MappingAttr) :
    (a.compose b).exprs.length = b.exprs.length := by
  simp [MappingAttr.compose]

theorem resizeUseDomain_size (n : Nat) (m : MappingAttr) :
    (m.resizeUseDomain n).exprs.length = m.exprs.length := by
  simp [MappingAttr.resizeUseDomain]

theorem unify_size (a b : MappingAttr) : (a.unify b).exprs.length = a.exprs.length := by
  unfold MappingAttr.unify
  split
  · rename_i h
    simp [h]
  · rfl

theorem listResize_length (n : Nat) (l : List Name) :
    (Buffer.listResize n l).length = n := by
  simp [Buffer.listResize]
  omega

theorem numCommonLoops_le_left : ∀ (a b : List Name), numCommonLoops a b ≤ a.length
  | [], _ => by simp [numCommonLoops]
  | _ :: _, [] => by simp [numCommonLoops]
  | x :: as, y :: bs => by
      by_cases h : x = y
      · simp only [numCommonLoops, if_pos h, List.length_cons]
        exact Nat.succ_le_succ (numCommonLoops_le_left as bs)
      · simp [numCommonLoops, h]

theorem numCommonLoops_le_right : ∀ (a b : List Name), numCommonLoops a b ≤ b.length
  | [], _ => by simp [numCommonLoops]
  | _ :: _, [] => by simp [numCommonLoops]
  | x :: as, y :: bs => by
      by_cases h : x = y
      · simp only [numCommonLoops, if_pos h, List.length_cons]
        exact Nat.succ_le_succ (numCommonLoops_le_right as bs)
      · simp [numCommonLoops, h]

theorem setLoopNest_length (ln : LoopNest) (b : Buffer) :
    (Buffer.setLoopNest ln b).loop_nest.length = ln.domain_to_loops.exprs.length := by
  by_cases h1 : ln.domain_to_loops.exprs.length = b.loop_nest.length
  · simp [Buffer.setLoopNest, h1]
  · by_cases h2 : b.domain.isEmpty
    · simp [Buffer.setLoopNest, h1, h2, listResize_length]
    · simp [Buffer.setLoopNest, h1, h2, listResize_length]

theorem setLoopNest_preserves (ln : LoopNest) (b : Buffer) :
    (Buffer.setLoopNest ln b).loc = b.loc
  ∧ (Buffer.setLoopNest ln b).element_type = b.element_type
  ∧ (Buffer.setLoopNest ln b).import_op = b.import_op
  ∧ (Buffer.setLoopNest ln b).writes = b.writes
  ∧ (Buffer.setLoopNest ln b).rank = b.rank := by
  by_cases h1 : ln.domain_to_loops.exprs.length = b.loop_nest.length
  · simp [Buffer.setLoopNest, h1]
  · by_cases h2 : b.domain.isEmpty
    · simp [Buffer.setLoopNest, Buffer.rank, h1, h2]
    · refine ⟨?_, ?_, ?_, ?_, ?_⟩
      · simp [Buffer.setLoopNest, h1, h2]
      · simp [Buffer.setLoopNest, h1, h2]
      · simp [Buffer.setLoopNest, h1, h2]
      · simp [Buffer.setLoopNest, h1, h2]
      · cases hl : b.layout with
        | none => simp [Buffer.setLoopNest, Buffer.rank, h1, h2, hl]
        | some l =>
            simp [Buffer.setLoopNest, Buffer.rank, h1, h2, hl, MappingAttr.size,
              compose_size]

theorem trim_preserves (is : IterationSpace) (layout : Option MappingAttr)
    (fa : LoopFusionAnalysis) (b : Buffer) :
    (trimBufferLoopNestForAccess is layout fa b).loc = b.loc
  ∧ (trimBufferLoopNestForAccess is layout fa b).element_type = b.element_type
  ∧ (trimBufferLoopNestForAccess is layout fa b).import_op = b.import_op
  ∧ (trimBufferLoopNestForAccess is layout fa b).writes = b.writes
  ∧ (trimBufferLoopNestForAccess is layout fa b).rank = b.rank := by
  unfold trimBufferLoopNestForAccess
  exact setLoopNest_preserves _ b

theorem appendToDomain_preserves (vs : List ValueAccess) (b : Buffer) :
    (b.appendToDomain vs).loc = b.loc
  ∧ (b.appendToDomain vs).element_type = b.element_type
  ∧ (b.appendToDomain vs).import_op = b.import_op
  ∧ (b.appendToDomain vs).writes = b.writes
  ∧ (b.appendToDomain vs).rank = b.rank := by
  refine ⟨rfl, rfl, rfl, rfl, ?_⟩
  cases hl : b.layout with
  | none => simp [Buffer.appendToDomain, Buffer.rank, hl]
  | some l =>
      simp [Buffer.appendToDomain, Buffer.rank, hl, MappingAttr.size,
        resizeUseDomain_size]

theorem unifyLayout_preserves (l : MappingAttr) (b : Buffer) :
    (b.unifyLayout l).loc = b.loc
  ∧ (b.unifyLayout l).element_type = b.element_type
  ∧ (b.unifyLayout l).import_op = b.import_op
  ∧ (b.unifyLayout l).writes = b.writes := by
  unfold Buffer.unifyLayout
  split <;> exact ⟨rfl, rfl, rfl, rfl⟩

theorem unifyLayout_rank_set (l : MappingAttr) (b : Buffer) (old : MappingAttr)
    (h : b.layout = some old) : (b.unifyLayout l).rank = b.rank := by
  simp [Buffer.unifyLayout, h, Buffer.rank, MappingAttr.size, unify_size]

theorem unifyBufferShape_ok_shape (name : Name) (op : OpId) (pinfo : ProgramInfo)
    (layout : MappingAttr) (is : IterationSpace) (fa : LoopFusionAnalysis)
    (b b' : Buffer) (h : unifyBufferShape name op pinfo layout is fa b = .ok b') :
    ∃ (cs : List MappingExpr) (dom : List ValueAccess),
      b' = (b.appendToDomain (dom.drop b.domain.length)).unifyLayout
        ((MappingAttr.mk (b.appendToDomain (dom.drop b.domain.length)).domain.length
          cs).compose (concatDomainsToLayout op pinfo layout is fa)) := by
  unfold unifyBufferShape at h
  dsimp only at h
  cases h1 : bufferConstraints op pinfo layout is fa b with
  | none => rw [h1] at h; simp at h
  | some constraints =>
    rw [h1] at h
    dsimp only at h
    cases h2 : resolveConstraints op pinfo is fa b
        (concatDomainsToLayout op pinfo layout is fa) constraints with
    | none => rw [h2] at h; simp at h
    | some p =>
      rw [h2] at h
      obtain ⟨cs, dom⟩ := p
      simp only [Except.ok.injEq] at h
      exact ⟨cs, dom, h.symm⟩

theorem unifyBufferShape_preserves (name : Name) (op : OpId) (pinfo : ProgramInfo)
    (layout : MappingAttr) (is : IterationSpace) (fa : LoopFusionAnalysis)
    (b b' : Buffer) (h : unifyBufferShape name op pinfo layout is fa b = .ok b') :
    b'.loc = b.loc ∧ b'.element_type = b.element_type ∧ b'.import_op = b.import_op
  ∧ b'.writes = b.writes
  ∧ (∀ r, b.rank = some r → b'.rank = some r) := by
  obtain ⟨cs, dom, rfl⟩ := unifyBufferShape_ok_shape name op pinfo layout is fa b b' h
  obtain ⟨h1, h2, h3, h4, h5⟩ := appendToDomain_preserves (dom.drop b.domain.length) b
  obtain ⟨g1, g2, g3, g4⟩ := unifyLayout_preserves
    ((MappingAttr.mk (b.appendToDomain (dom.drop b.domain.length)).domain.length cs).compose
      (concatDomainsToLayout op pinfo layout is fa))
    (b.appendToDomain (dom.drop b.domain.length))
  refine ⟨g1.trans h1, g2.trans h2, g3.trans h3, g4.trans h4, ?_⟩
  intro r hr
  have hbl : ∃ old, b.layout = some old := by
    cases hb : b.layout with
    | none => rw [Buffer.rank, hb] at hr; simp at hr
    | some old => exact ⟨old, rfl⟩
  obtain ⟨old, hold⟩ := hbl
  have h6 : (b.appendToDomain (dom.drop b.domain.length)).layout =
      some (old.resizeUseDomain (b.domain ++ dom.drop b.domain.length).length) := by
    simp [Buffer.appendToDomain, hold]
  rw [unifyLayout_rank_set _ _ _ h6, h5, hr]

end SairStorage

namespace SairStorage

theorem find?_append_some {α : Type} (p : α → Bool) :
    ∀ (m l : List α) (x : α), m.find? p = some x → (m ++ l).find? p = some x
  | [], _, x, h => by simp at h
  | a :: as, l, x, h => by
      by_cases hp : p a
      · rw [List.find?_cons_of_pos _ hp] at h
        rw [List.cons_append, List.find?_cons_of_pos _ hp]
        exact h
      · rw [List.find?_cons_of_neg _ (by simpa using hp)] at h
        rw [List.cons_append, List.find?_cons_of_neg _ (by simpa using hp)]
        exact find?_append_some p as l x h

theorem lookupBuffer_append_left (n : Name) (m l : List (Name × Buffer)) (b : Buffer)
    (h : lookupBuffer n m = some b) : lookupBuffer n (m ++ l) = some b := by
  unfold lookupBuffer at h ⊢
  cases hf : m.find? (fun p => decide (p.1 = n)) with
  | none => rw [hf] at h; simp at h
  | some p =>
    rw [hf] at h
    rw [find?_append_some _ m l p hf]
    exact h

theorem lookupBuffer_setBuffer_same (n : Name) (b' : Buffer) :
    ∀ (m : List (Name × Buffer)) (b : Buffer), lookupBuffer n m = some b →
      lookupBuffer n (setBuffer n b' m) = some b'
  | [], b, h => by simp [lookupBuffer] at h
  | p :: ps, b, h => by
      by_cases hp : p.1 = n
      · simp only [setBuffer, List.map_cons, if_pos hp]
        unfold lookupBuffer
        rw [List.find?_cons_of_pos _ (by simpa using hp)]
        rfl
      · simp only [setBuffer, List.map_cons, if_neg hp]
        unfold lookupBuffer at h ⊢
        rw [List.find?_cons_of_neg _ (by simpa using hp)] at h
        rw [List.find?_cons_of_neg _ (by simpa using hp)]
        exact lookupBuffer_setBuffer_same n b' ps b h

theorem lookupBuffer_setBuffer_ne (n' n : Name) (b' : Buffer) (hne : n' ≠ n) :
    ∀ (m : List (Name × Buffer)),
      lookupBuffer n' (setBuffer n b' m) = lookupBuffer n' m
  | [] => rfl
  | p :: ps => by
      by_cases hp : p.1 = n
      · simp only [setBuffer, List.map_cons, if_pos hp]
        unfold lookupBuffer
        have hne1 : ¬ p.1 = n' := by rw [hp]; exact fun hx => hne hx.symm
        rw [List.find?_cons_of_neg _ (by simpa using hne1)]
        rw [List.find?_cons_of_neg _ (by simpa using hne1)]
        exact congrArg (Option.map _) (congrArg _ rfl) |>.trans
          (lookupBuffer_setBuffer_ne n' n b' hne ps)
      · simp only [setBuffer, List.map_cons, if_neg hp]
        unfold lookupBuffer
        by_cases hq : p.1 = n'
        · rw [List.find?_cons_of_pos _ (by simpa using hq)]
          rw [List.find?_cons_of_pos _ (by simpa using hq)]
        · rw [List.find?_cons_of_neg _ (by simpa using hq)]
          rw [List.find?_cons_of_neg _ (by simpa using hq)]
          exact lookupBuffer_setBuffer_ne n' n b' hne ps

theorem checkLayoutsFullySpecified_ok_iff (bs : List (Name × Buffer)) :
    checkLayoutsFullySpecified bs = .ok () ↔
      ∀ p ∈ bs, ∀ l, p.2.layout = some l → l.hasNoneExprs = false := by
  unfold checkLayoutsFullySpecified
  cases hf : bs.find? (fun p =>
      match p.2.layout with
      | some l => l.hasNoneExprs
      | none => false) with
  | none =>
    simp only [iff_true_intro rfl, true_iff]
    intro p hp l hl
    have hnp := List.find?_eq_none.mp hf p hp
    rw [hl] at hnp
    simpa using hnp
  | some p =>
    constructor
    · intro h; exact absurd h (by simp)
    · intro h
      have hmem := List.mem_of_find?_eq_some hf
      have hpred := List.find?_some hf
      cases hl : p.2.layout with
      | none => rw [hl] at hpred; simp at hpred
      | some l =>
        rw [hl] at hpred
        simp only at hpred
        exact absurd (h p hmem l hl) (by simp [hpred])

theorem declareBuffer_loc (op : ComputeOpInfo) (result : Nat) (attr : Option BufferAttr)
    (fa : LoopFusionAnalysis) (isa : IterationSpaceAnalysis) (pinfo : ProgramInfo)
    (m m' : List (Name × Buffer))
    (h : declareBuffer op result attr fa isa pinfo m = .ok m') :
    ∀ n b, lookupBuffer n m = some b →
      ∃ b', lookupBuffer n m' = some b' ∧ b'.loc = b.loc := by
  intro n b hb
  cases attr with
  | none =>
    simp only [declareBuffer, Except.ok.injEq] at h
    subst h
    exact ⟨b, hb, rfl⟩
  | some a =>
    cases hname : a.name with
    | none =>
      unfold declareBuffer at h
      dsimp only at h
      rw [hname] at h
      simp only [Except.ok.injEq] at h
      subst h
      exact ⟨b, hb, rfl⟩
    | some name =>
      unfold declareBuffer at h
      dsimp only at h
      rw [hname] at h
      dsimp only at h
      cases hfound : lookupBuffer name m with
      | some b0 =>
        rw [tryEmplace, hfound] at h
        dsimp only at h
        by_cases helt : b0.element_type ≠ op.result_types.getD result ""
        · rw [if_pos helt] at h; exact absurd h (by simp)
        · rw [if_neg helt] at h
          by_cases hrk : (match b0.rank, getBufferLayout op.id a isa with
              | some r, some l => decide (r ≠ l.exprs.length)
              | _, _ => false) = true
          · rw [if_pos hrk] at h; exact absurd h (by simp)
          · rw [if_neg hrk] at h
            have step : ∀ bX : Buffer, bX.loc = b0.loc →
                setBuffer name bX m = m' →
                ∃ b', lookupBuffer n m' = some b' ∧ b'.loc = b.loc := by
              intro bX hloc hset
              by_cases hn : n = name
              · subst hn
                have hbb : b0 = b := by
                  have hx := hfound.symm.trans hb
                  injection hx
                subst hset
                refine ⟨bX, lookupBuffer_setBuffer_same n bX m b hb, ?_⟩
                rw [hloc, hbb]
              · subst hset
                rw [lookupBuffer_setBuffer_ne n name bX hn m]
                exact ⟨b, hb, rfl⟩
            cases hlay : getBufferLayout op.id a isa with
            | none =>
              rw [hlay] at h
              dsimp only at h
              simp only [Except.ok.injEq] at h
              refine step _ ?_ h
              exact (trim_preserves _ _ fa b0).1
            | some l =>
              rw [hlay] at h
              dsimp only at h
              cases hu : unifyBufferShape name op.id pinfo l (isa.get op.id) fa
                  (trimBufferLoopNestForAccess (isa.get op.id) (some l) fa b0) with
              | error d => rw [hu] at h; exact absurd h (by simp [Except.map])
              | ok bU =>
                rw [hu] at h
                simp only [Except.map, Except.ok.injEq] at h
                refine step bU ?_ h
                have h1 := (unifyBufferShape_preserves _ _ _ _ _ _ _ _ hu).1
                rw [h1]
                exact (trim_preserves _ _ fa b0).1
      | none =>
        rw [tryEmplace, hfound] at h
        dsimp only at h
        have hn : n ≠ name := by
          intro hx
          subst hx
          rw [hb] at hfound
          exact absurd hfound (by simp)
        by_cases helt : (Buffer.new (pinfo.op_loc op.id) (op.result_types.getD result "")
            (isa.get op.id).loop_names (fa.getLoopNest (isa.get op.id).loop_names)).element_type ≠
            op.result_types.getD result ""
        · rw [if_pos helt] at h; exact absurd h (by simp)
        · rw [if_neg helt] at h
          by_cases hrk : (match (Buffer.new (pinfo.op_loc op.id) (op.result_types.getD result "")
                (isa.get op.id).loop_names (fa.getLoopNest (isa.get op.id).loop_names)).rank,
                getBufferLayout op.id a isa with
              | some r, some l => decide (r ≠ l.exprs.length)
              | _, _ => false) = true
          · rw [if_pos hrk] at h; exact absurd h (by simp)
          · rw [if_neg hrk] at h
            have hlook : lookupBuffer n (m ++ [(name,
                Buffer.new (pinfo.op_loc op.id) (op.result_types.getD result "")
                  (isa.get op.id).loop_names (fa.getLoopNest (isa.get op.id).loop_names))]) =
                some b := lookupBuffer_append_left n m _ b hb
            cases hlay : getBufferLayout op.id a isa with
            | none =>
              rw [hlay] at h
              dsimp only at h
              simp only [Except.ok.injEq] at h
              subst h
              rw [lookupBuffer_setBuffer_ne n name _ hn]
              exact ⟨b, hlook, rfl⟩
            | some l =>
              rw [hlay] at h
              dsimp only at h
              cases hu : unifyBufferShape name op.id pinfo l (isa.get op.id) fa
                  (trimBufferLoopNestForAccess (isa.get op.id) (some l) fa
                    (Buffer.new (pinfo.op_loc op.id) (op.result_types.getD result "")
                      (isa.get op.id).loop_names (fa.getLoopNest (isa.get op.id).loop_names))) with
              | error d => rw [hu] at h; exact absurd h (by simp [Except.map])
              | ok bU =>
                rw [hu] at h
                simp only [Except.map, Except.ok.injEq] at h
                subst h
                rw [lookupBuffer_setBuffer_ne n name _ hn]
                exact ⟨b, hlook, rfl⟩

end SairStorage

namespace SairStorage

theorem append_ne_of_length_ne (pre s1 s2 : String) (h : s1.length ≠ s2.length) :
    pre ++ s1 ≠ pre ++ s2 := by
  intro hx
  apply h
  have hlen := congrArg String.length hx
  simpa [String.length_append] using hlen

theorem unifyBufferShape_error_msg (name : Name) (op : OpId) (pinfo : ProgramInfo)
    (layout : MappingAttr) (is : IterationSpace) (fa : LoopFusionAnalysis)
    (b : Buffer) (d : Diag)
    (h : unifyBufferShape name op pinfo layout is fa b = .error d) :
    d.msg = "buffer " ++ name ++ " layout is incompatible with previous occurences" ∨
    d.msg = "buffer " ++ name ++ " unification of layouts failed" := by
  unfold unifyBufferShape at h
  dsimp only at h
  cases h1 : bufferConstraints op pinfo layout is fa b with
  | none =>
    rw [h1] at h
    simp only [Except.error.injEq] at h
    subst h
    left
    rfl
  | some constraints =>
    rw [h1] at h
    dsimp only at h
    cases h2 : resolveConstraints op pinfo is fa b
        (concatDomainsToLayout op pinfo layout is fa) constraints with
    | none =>
      rw [h2] at h
      simp only [Except.error.injEq] at h
      subst h
      right
      rfl
    | some p =>
      rw [h2] at h
      obtain ⟨cs, dom⟩ := p
      simp at h

/-- Claim C2: after buffer declaration has processed every import and
compute operation, every buffer whose layout is set contains no "none"
placeholder expression; if some buffer's layout still has a "none"
placeholder after the walks, `DeclareBuffers` fails with a "layout is not
fully specified" diagnostic reported at that buffer's recorded declaration
location, and processing an already-declared buffer never changes the
recorded location. -/
theorem claim2_layouts_fully_specified (prog : Program) (isa : IterationSpaceAnalysis)
    (fa : LoopFusionAnalysis) (pinfo : ProgramInfo) :
    (∀ bs, declareBuffers prog isa fa pinfo = .ok bs →
        ∀ p ∈ bs, ∀ l, p.2.layout = some l → l.hasNoneExprs = false)
  ∧ (∀ bs1 bs2 p,
        prog.import_ops.foldlM (fun m op => declareExternalBuffer op fa isa pinfo m) []
          = .ok bs1 →
        prog.compute_ops.foldlM (fun m op =>
            (List.range op.results.length).foldlM
              (fun m2 i => declareBuffer op i (op.storage.getD i none) fa isa pinfo m2) m)
          bs1 = .ok bs2 →
        bs2.find? (fun q =>
            match q.2.layout with
            | some l => l.hasNoneExprs
            | none => false) = some p →
        declareBuffers prog isa fa pinfo =
          .error ⟨p.2.loc, "buffer " ++ p.1 ++ " layout is not fully specified", []⟩)
  ∧ (∀ op result attr m m', declareBuffer op result attr fa isa pinfo m = .ok m' →
      ∀ n b, lookupBuffer n m = some b →
        ∃ b', lookupBuffer n m' = some b' ∧ b'.loc = b.loc) := by
  refine ⟨?_, ?_, ?_⟩
  · intro bs h
    unfold declareBuffers at h
    cases h1 : prog.import_ops.foldlM
        (fun m op => declareExternalBuffer op fa isa pinfo m) [] with
    | error d => rw [h1] at h; simp [Bind.bind, Except.bind] at h
    | ok bs1 =>
      rw [h1] at h
      simp only [Bind.bind, Except.bind] at h
      cases h2 : prog.compute_ops.foldlM (fun m op =>
          (List.range op.results.length).foldlM
            (fun m2 i => declareBuffer op i (op.storage.getD i none) fa isa pinfo m2) m)
          bs1 with
      | error d => rw [h2] at h; simp at h
      | ok bs2 =>
        rw [h2] at h
        dsimp only at h
        cases h3 : checkLayoutsFullySpecified bs2 with
        | error d => rw [h3] at h; simp at h
        | ok u =>
          rw [h3] at h
          simp only [pure, Except.pure, Except.ok.injEq] at h
          subst h
          exact (checkLayoutsFullySpecified_ok_iff bs2).mp (by cases u; exact h3)
  · intro bs1 bs2 p h1 h2 hfind
    unfold declareBuffers
    rw [h1]
    simp only [Bind.bind, Except.bind]
    rw [h2]
    dsimp only
    have h3 : checkLayoutsFullySpecified bs2 =
        .error ⟨p.2.loc, "buffer " ++ p.1 ++ " layout is not fully specified", []⟩ := by
      unfold checkLayoutsFullySpecified
      rw [hfind]
    rw [h3]
  · intro op result attr m m' h n b hb
    exact declareBuffer_loc op result attr fa isa pinfo m m' h n b hb

/-- Witness for claim C2: declaring with a null attribute succeeds, and the
recorded declaration location of an existing buffer is preserved. -/
theorem claim2_witness :
    declareBuffer ⟨0, [], [], []⟩ 0 none trivialFA trivialISA trivialPinfo
        [("w2", ⟨7, "f32", none, [], [], none, [], [], []⟩)]
      = .ok [("w2", ⟨7, "f32", none, [], [], none, [], [], []⟩)]
  ∧ ∃ b', lookupBuffer "w2" [("w2", ⟨7, "f32", none, [], [], none, [], [], []⟩)] = some b'
      ∧ b'.loc = (⟨7, "f32", none, [], [], none, [], [], []⟩ : Buffer).loc :=
  ⟨rfl,
   (claim2_layouts_fully_specified ⟨[], []⟩ trivialISA trivialFA trivialPinfo).2.2
     ⟨0, [], [], []⟩ 0 none
     [("w2", ⟨7, "f32", none, [], [], none, [], [], []⟩)]
     [("w2", ⟨7, "f32", none, [], [], none, [], [], []⟩)] rfl
     "w2" ⟨7, "f32", none, [], [], none, [], [], []⟩ rfl⟩

end SairStorage

namespace SairStorage

/-- Claim C4: for an operation result annotated with a buffer name already
present in the buffer table, a differing scalar element type makes
`DeclareBuffer` fail with a diagnostic naming the buffer at the current
operation plus a "previous occurence here" note at the buffer's first
declaration; equal element types pass this check and leave the buffer's
element type unchanged. -/
theorem claim4_element_type_conflict (op : ComputeOpInfo) (result : Nat)
    (a : BufferAttr) (name : Name) (fa : LoopFusionAnalysis)
    (isa : IterationSpaceAnalysis) (pinfo : ProgramInfo)
    (m : List (Name × Buffer)) (b : Buffer)
    (hname : a.name = some name) (hb : lookupBuffer name m = some b) :
    (b.element_type ≠ op.result_types.getD result "" →
      declareBuffer op result (some a) fa isa pinfo m =
        .error ⟨pinfo.op_loc op.id,
          "buffer " ++ name ++ " has different element type than in previous occurence",
          [(b.loc, "previous occurence here")]⟩)
  ∧ (b.element_type = op.result_types.getD result "" →
      (∀ d, declareBuffer op result (some a) fa isa pinfo m = .error d →
        d.msg ≠ "buffer " ++ name ++ " has different element type than in previous occurence")
    ∧ (∀ m', declareBuffer op result (some a) fa isa pinfo m = .ok m' →
        ∃ b', lookupBuffer name m' = some b' ∧ b'.element_type = b.element_type)) := by
  constructor
  · intro hne
    unfold declareBuffer
    dsimp only
    rw [hname]
    dsimp only
    rw [tryEmplace, hb]
    dsimp only
    rw [if_pos hne]
  · intro heq
    constructor
    · intro d hd
      unfold declareBuffer at hd
      dsimp only at hd
      rw [hname] at hd
      dsimp only at hd
      rw [tryEmplace, hb] at hd
      dsimp only at hd
      rw [if_neg (by simp [heq])] at hd
      by_cases hrk : (match b.rank, getBufferLayout op.id a isa with
          | some r, some l => decide (r ≠ l.exprs.length)
          | _, _ => false) = true
      · rw [if_pos hrk] at hd
        simp only [Except.error.injEq] at hd
        subst hd
        exact append_ne_of_length_ne ("buffer " ++ name) _ _ (by decide)
      · rw [if_neg hrk] at hd
        cases hlay : getBufferLayout op.id a isa with
        | none => rw [hlay] at hd; simp at hd
        | some l =>
          rw [hlay] at hd
          dsimp only at hd
          cases hu : unifyBufferShape name op.id pinfo l (isa.get op.id) fa
              (trimBufferLoopNestForAccess (isa.get op.id) (some l) fa b) with
          | ok bU => rw [hu] at hd; simp [Except.map] at hd
          | error d' =>
            rw [hu] at hd
            simp only [Except.map, Except.error.injEq] at hd
            subst hd
            rcases unifyBufferShape_error_msg _ _ _ _ _ _ _ _ hu with hmsg | hmsg <;>
              (rw [hmsg]
               exact append_ne_of_length_ne ("buffer " ++ name) _ _ (by decide))
    · intro m' hm
      unfold declareBuffer at hm
      dsimp only at hm
      rw [hname] at hm
      dsimp only at hm
      rw [tryEmplace, hb] at hm
      dsimp only at hm
      rw [if_neg (by simp [heq])] at hm
      by_cases hrk : (match b.rank, getBufferLayout op.id a isa with
          | some r, some l => decide (r ≠ l.exprs.length)
          | _, _ => false) = true
      · rw [if_pos hrk] at hm; exact absurd hm (by simp)
      · rw [if_neg hrk] at hm
        cases hlay : getBufferLayout op.id a isa with
        | none =>
          rw [hlay] at hm
          dsimp only at hm
          simp only [Except.ok.injEq] at hm
          subst hm
          refine ⟨_, lookupBuffer_setBuffer_same name _ m b hb, ?_⟩
          exact (trim_preserves _ _ fa b).2.1
        | some l =>
          rw [hlay] at hm
          dsimp only at hm
          cases hu : unifyBufferShape name op.id pinfo l (isa.get op.id) fa
              (trimBufferLoopNestForAccess (isa.get op.id) (some l) fa b) with
          | error d => rw [hu] at hm; simp [Except.map] at hm
          | ok bU =>
            rw [hu] at hm
            simp only [Except.map, Except.ok.injEq] at hm
            subst hm
            refine ⟨bU, lookupBuffer_setBuffer_same name bU m b hb, ?_⟩
            have h1 := (unifyBufferShape_preserves _ _ _ _ _ _ _ _ hu).2.1
            rw [h1]
            exact (trim_preserves _ _ fa b).2.1

/-- Witness for claim C4: a buffer declared with element type f32 and seen
again with element type i32 produces the element-type-conflict diagnostic
citing both sites. -/
theorem claim4_element_type_conflict_witness :
    (⟨7, "f32", none, [], [], none, [], [], []⟩ : Buffer).element_type ≠
      (⟨3, ["i32"], [5], [some ⟨"memory", some "w4", none⟩]⟩ :
        ComputeOpInfo).result_types.getD 0 ""
  ∧ declareBuffer ⟨3, ["i32"], [5], [some ⟨"memory", some "w4", none⟩]⟩ 0
      (some ⟨"memory", some "w4", none⟩) trivialFA trivialISA trivialPinfo
      [("w4", ⟨7, "f32", none, [], [], none, [], [], []⟩)] =
    .error ⟨trivialPinfo.op_loc 3,
      "buffer " ++ "w4" ++ " has different element type than in previous occurence",
      [((7 : Loc), "previous occurence here")]⟩ :=
  ⟨by decide,
   (claim4_element_type_conflict ⟨3, ["i32"], [5], [some ⟨"memory", some "w4", none⟩]⟩ 0
      ⟨"memory", some "w4", none⟩ "w4" trivialFA trivialISA trivialPinfo
      [("w4", ⟨7, "f32", none, [], [], none, [], [], []⟩)]
      ⟨7, "f32", none, [], [], none, [], [], []⟩ rfl rfl).1 (by decide)⟩

/-- Claim C5: a buffer's rank is either unset or constant across every
successful declaration: a new layout whose size differs from the recorded
rank makes `DeclareBuffer` fail with a rank-conflict diagnostic citing the
current operation and the previous occurence, and a successful declaration
leaves a set rank unchanged. -/
theorem claim5_rank_stability (op : ComputeOpInfo) (result : Nat) (a : BufferAttr)
    (name : Name) (fa : LoopFusionAnalysis) (isa : IterationSpaceAnalysis)
    (pinfo : ProgramInfo) (m : List (Name × Buffer)) (b : Buffer) (r : Nat)
    (hname : a.name = some name) (hb : lookupBuffer name m = some b)
    (helt : b.element_type = op.result_types.getD result "") :
    (∀ l, getBufferLayout op.id a isa = some l → b.rank = some r →
      r ≠ l.exprs.length →
      declareBuffer op result (some a) fa isa pinfo m =
        .error ⟨pinfo.op_loc op.id,
          "buffer " ++ name ++ " rank differs from previous occurence",
          [(b.loc, "previous occurence here")]⟩)
  ∧ (b.rank = some r → ∀ m', declareBuffer op result (some a) fa isa pinfo m = .ok m' →
      ∃ b', lookupBuffer name m' = some b' ∧ b'.rank = some r) := by
  constructor
  · intro l hlay hr hne
    unfold declareBuffer
    dsimp only
    rw [hname]
    dsimp only
    rw [tryEmplace, hb]
    dsimp only
    rw [if_neg (by simp [helt])]
    rw [if_pos (by rw [hr, hlay]; simpa using hne)]
  · intro hr m' hm
    unfold declareBuffer at hm
    dsimp only at hm
    rw [hname] at hm
    dsimp only at hm
    rw [tryEmplace, hb] at hm
    dsimp only at hm
    rw [if_neg (by simp [helt])] at hm
    by_cases hrk : (match b.rank, getBufferLayout op.id a isa with
        | some r2, some l => decide (r2 ≠ l.exprs.length)
        | _, _ => false) = true
    · rw [if_pos hrk] at hm; exact absurd hm (by simp)
    · rw [if_neg hrk] at hm
      cases hlay : getBufferLayout op.id a isa with
      | none =>
        rw [hlay] at hm
        dsimp only at hm
        simp only [Except.ok.injEq] at hm
        subst hm
        refine ⟨_, lookupBuffer_setBuffer_same name _ m b hb, ?_⟩
        rw [(trim_preserves _ _ fa b).2.2.2.2, hr]
      | some l =>
        rw [hlay] at hm
        dsimp only at hm
        cases hu : unifyBufferShape name op.id pinfo l (isa.get op.id) fa
            (trimBufferLoopNestForAccess (isa.get op.id) (some l) fa b) with
        | error d => rw [hu] at hm; simp [Except.map] at hm
        | ok bU =>
          rw [hu] at hm
          simp only [Except.map, Except.ok.injEq] at hm
          subst hm
          refine ⟨bU, lookupBuffer_setBuffer_same name bU m b hb, ?_⟩
          have htr : (trimBufferLoopNestForAccess (isa.get op.id) (some l) fa b).rank
              = some r := by rw [(trim_preserves _ _ fa b).2.2.2.2, hr]
          exact (unifyBufferShape_preserves _ _ _ _ _ _ _ _ hu).2.2.2.2 r htr

/-- Witness for claim C5: a buffer of rank 2 redeclared with a layout of
size 1 produces the rank-conflict diagnostic citing both sites. -/
theorem claim5_rank_stability_witness :
    getBufferLayout 3 ⟨"memory", some "w5", some ⟨[], ⟨0, [.noneE]⟩⟩⟩ trivialISA
      = some ⟨0, [.noneE]⟩
  ∧ (⟨7, "f32", none, [], [], some ⟨0, [.dim 0, .dim 0]⟩, [], [], []⟩ : Buffer).rank
      = some 2
  ∧ declareBuffer ⟨3, ["f32"], [5], [some ⟨"memory", some "w5", some ⟨[], ⟨0, [.noneE]⟩⟩⟩]⟩ 0
      (some ⟨"memory", some "w5", some ⟨[], ⟨0, [.noneE]⟩⟩⟩) trivialFA trivialISA
      trivialPinfo
      [("w5", ⟨7, "f32", none, [], [], some ⟨0, [.dim 0, .dim 0]⟩, [], [], []⟩)] =
    .error ⟨trivialPinfo.op_loc 3,
      "buffer " ++ "w5" ++ " rank differs from previous occurence",
      [((7 : Loc), "previous occurence here")]⟩ :=
  ⟨by decide, by decide,
   (claim5_rank_stability ⟨3, ["f32"], [5], [some ⟨"memory", some "w5", some ⟨[], ⟨0, [.noneE]⟩⟩⟩]⟩
      0 ⟨"memory", some "w5", some ⟨[], ⟨0, [.noneE]⟩⟩⟩ "w5" trivialFA trivialISA
      trivialPinfo
      [("w5", ⟨7, "f32", none, [], [], some ⟨0, [.dim 0, .dim 0]⟩, [], [], []⟩)]
      ⟨7, "f32", none, [], [], some ⟨0, [.dim 0, .dim 0]⟩, [], [], []⟩ 2 rfl rfl
      (by decide)).1 ⟨0, [.noneE]⟩ (by decide) (by decide) (by decide)⟩

end SairStorage

namespace SairStorage

theorem trim_length (is : IterationSpace) (layout : Option MappingAttr)
    (fa : LoopFusionAnalysis) (b : Buffer) :
    (trimBufferLoopNestForAccess is layout fa b).loop_nest.length =
      match layout with
      | none => numCommonLoops is.loop_names b.loop_nest
      | some l =>
        match l.firstDep with
        | some f => min (numCommonLoops is.loop_names b.loop_nest) f
        | none => numCommonLoops is.loop_names b.loop_nest := by
  unfold trimBufferLoopNestForAccess
  rw [setLoopNest_length, fa.getLoopNest_size, List.length_take]
  have hk := numCommonLoops_le_left is.loop_names b.loop_nest
  cases layout with
  | none => dsimp only; omega
  | some l =>
    dsimp only
    cases hf : l.firstDep with
    | none => dsimp only; omega
    | some f =>
      dsimp only
      by_cases hlt : f < numCommonLoops is.loop_names b.loop_nest
      · rw [if_pos hlt]; omega
      · rw [if_neg hlt]; omega

/-- Claim C3: accessing a buffer trims its loop nest to the prefix of
length `min k f` where `k` is the number of leading loops common to the
access's iteration space and the buffer's loop nest and `f` is the position
of the first loop referenced by the layout (the cap applies only when a
layout is given and references some loop); with no layout only the
common-prefix bound `k` applies, and registering a new buffer use in
`UpdateStorage` applies the layout-free trim for the defining operation's
and every user's iteration space. -/
theorem claim3_trim_loop_nest :
    (∀ (is : IterationSpace) (fa : LoopFusionAnalysis) (b : Buffer) (l : MappingAttr),
        (trimBufferLoopNestForAccess is (some l) fa b).loop_nest.length =
          match l.firstDep with
          | some f => min (numCommonLoops is.loop_names b.loop_nest) f
          | none => numCommonLoops is.loop_names b.loop_nest)
  ∧ (∀ (is : IterationSpace) (fa : LoopFusionAnalysis) (b : Buffer),
        (trimBufferLoopNestForAccess is none fa b).loop_nest.length =
          numCommonLoops is.loop_names b.loop_nest)
  ∧ (∀ (value : ValueId) (new_storage : ValueStorage) (fa : LoopFusionAnalysis)
        (isa : IterationSpaceAnalysis) (pinfo : ProgramInfo) (storage : ValueStorage)
        (buffers : List (Name × Buffer)) (n : Name) (b : Buffer) (st : ValueStorage)
        (bufs : List (Name × Buffer)),
        storage.buffer_name = none → new_storage.buffer_name = some n →
        lookupBuffer n buffers = some b →
        updateStorage value new_storage fa isa pinfo storage buffers = .ok (st, bufs) →
        lookupBuffer n bufs = some
          ((pinfo.value_users value).foldl
            (fun bb u => trimBufferLoopNestForAccess (isa.get u) none fa bb)
            (trimBufferLoopNestForAccess (isa.get (pinfo.value_def value)) none fa
              (b.addValue value pinfo)))) := by
  refine ⟨?_, ?_, ?_⟩
  · intro is fa b l
    exact trim_length is (some l) fa b
  · intro is fa b
    exact trim_length is none fa b
  · intro value new_storage fa isa pinfo storage buffers n b st bufs hbn hnew hlook h
    unfold updateStorage at h
    rw [hbn, hnew] at h
    dsimp only at h
    rw [hlook] at h
    dsimp only at h
    split at h
    · exact absurd h (by simp)
    · split at h
      · exact absurd h (by simp)
      · split at h
        · exact absurd h (by simp)
        · simp only [Except.ok.injEq, Prod.mk.injEq] at h
          obtain ⟨-, hbufs⟩ := h
          subst hbufs
          exact lookupBuffer_setBuffer_same n _ buffers b hlook

/-- Witness for claim C3: registering a fresh buffer use through
`UpdateStorage` records the value and applies the layout-free trims. -/
theorem claim3_trim_loop_nest_witness :
    updateStorage 0 ⟨none, some "b", none⟩ trivialFA trivialISA trivialPinfo
        ⟨none, none, none⟩ [("b", ⟨0, "f32", none, [], [], none, [], [], []⟩)] =
      .ok (⟨none, some "b", none⟩,
        [("b", ⟨0, "f32", none, [], [], none, [(0, 0)], [], [0]⟩)])
  ∧ lookupBuffer "b" [("b", ⟨0, "f32", none, [], [], none, [(0, 0)], [], [0]⟩)] =
      some ((trivialPinfo.value_users 0).foldl
        (fun bb u => trimBufferLoopNestForAccess (trivialISA.get u) none trivialFA bb)
        (trimBufferLoopNestForAccess (trivialISA.get (trivialPinfo.value_def 0)) none
          trivialFA
          ((⟨0, "f32", none, [], [], none, [], [], []⟩ : Buffer).addValue 0 trivialPinfo))) :=
  ⟨rfl,
   claim3_trim_loop_nest.2.2 0 ⟨none, some "b", none⟩ trivialFA trivialISA trivialPinfo
     ⟨none, none, none⟩ [("b", ⟨0, "f32", none, [], [], none, [], [], []⟩)] "b"
     ⟨0, "f32", none, [], [], none, [], [], []⟩ ⟨none, some "b", none⟩
     [("b", ⟨0, "f32", none, [], [], none, [(0, 0)], [], [0]⟩)] rfl rfl rfl rfl⟩

theorem verifyAndMinimizeBuffer_le (name : Name) (b : Buffer)
    (fa : LoopFusionAnalysis) (isa : IterationSpaceAnalysis) (pinfo : ProgramInfo)
    (b' : Buffer) (h : verifyAndMinimizeBuffer name b fa isa pinfo = .ok b') :
    b'.loop_nest.length ≤ b.loop_nest.length := by
  unfold verifyAndMinimizeBuffer at h
  cases hl : b.layout with
  | none =>
    rw [hl] at h
    simp only [Except.ok.injEq] at h
    subst h
    exact Nat.le_refl _
  | some l =>
    rw [hl] at h
    dsimp only at h
    split at h
    · exact absurd h (by simp)
    · split at h
      · exact absurd h (by simp)
      · split at h
        · simp only [Except.ok.injEq] at h
          subst h
          exact Nat.le_refl _
        · split at h
          · exact absurd h (by simp)
          · simp only [Except.ok.injEq] at h
            subst h
            rw [setLoopNest_length, fa.getLoopNest_size, List.length_take]
            omega

/-- Claim C6: the loop nest of a buffer never grows: `SetLoopNest` called
with a loop nest no longer than the current one keeps the length bounded,
each access trim keeps the loop nest within its previous length, and a
successful `VerifyAndMinimizeBufferLoopNests` maps every buffer to a buffer
with the same name and a loop nest no longer than before. -/
theorem claim6_loop_nest_shrink_only :
    (∀ (ln : LoopNest) (b : Buffer),
        ln.domain_to_loops.exprs.length ≤ b.loop_nest.length →
        (Buffer.setLoopNest ln b).loop_nest.length ≤ b.loop_nest.length)
  ∧ (∀ (is : IterationSpace) (layout : Option MappingAttr) (fa : LoopFusionAnalysis)
        (b : Buffer),
        (trimBufferLoopNestForAccess is layout fa b).loop_nest.length ≤
          b.loop_nest.length)
  ∧ (∀ (fa : LoopFusionAnalysis) (isa : IterationSpaceAnalysis) (pinfo : ProgramInfo)
        (bs bs' : List (Name × Buffer)),
        verifyAndMinimizeBufferLoopNests fa isa pinfo bs = .ok bs' →
        List.Forall₂ (fun p q => p.1 = q.1 ∧ q.2.loop_nest.length ≤ p.2.loop_nest.length)
          bs bs') := by
  refine ⟨?_, ?_, ?_⟩
  · intro ln b h
    rw [setLoopNest_length]
    exact h
  · intro is layout fa b
    rw [trim_length]
    have hk := numCommonLoops_le_right is.loop_names b.loop_nest
    cases layout with
    | none => exact hk
    | some l =>
      dsimp only
      cases l.firstDep with
      | none => exact hk
      | some f => dsimp only; omega
  · intro fa isa pinfo bs
    induction bs with
    | nil =>
      intro bs' h
      unfold verifyAndMinimizeBufferLoopNests at h
      simp only [Except.ok.injEq] at h
      subst h
      exact List.Forall₂.nil
    | cons p ps ih =>
      intro bs' h
      unfold verifyAndMinimizeBufferLoopNests at h
      cases h1 : verifyAndMinimizeBuffer p.1 p.2 fa isa pinfo with
      | error d => rw [h1] at h; simp at h
      | ok b2 =>
        rw [h1] at h
        dsimp only at h
        cases h2 : verifyAndMinimizeBufferLoopNests fa isa pinfo ps with
        | error d => rw [h2] at h; simp at h
        | ok rest =>
          rw [h2] at h
          simp only [Except.ok.injEq] at h
          subst h
          exact List.Forall₂.cons
            ⟨rfl, verifyAndMinimizeBuffer_le p.1 p.2 fa isa pinfo b2 h1⟩ (ih rest h2)

/-- Witness for claim C6 at a concrete buffer with a one-loop nest. -/
theorem claim6_loop_nest_shrink_only_witness :
    (⟨[], ⟨0, []⟩⟩ : LoopNest).domain_to_loops.exprs.length ≤
      (⟨0, "f32", none, ["x"], [], none, [], [], []⟩ : Buffer).loop_nest.length
  ∧ (Buffer.setLoopNest ⟨[], ⟨0, []⟩⟩
        ⟨0, "f32", none, ["x"], [], none, [], [], []⟩).loop_nest.length ≤
      (⟨0, "f32", none, ["x"], [], none, [], [], []⟩ : Buffer).loop_nest.length :=
  ⟨by decide,
   claim6_loop_nest_shrink_only.1 ⟨[], ⟨0, []⟩⟩
     ⟨0, "f32", none, ["x"], [], none, [], [], []⟩ (by decide)⟩

end SairStorage

namespace SairStorage

/-- Claim C7: communication-volume verification is deferred (succeeds) when
either iteration space is not fully specified or the value's layout is
null; when both iteration spaces are fully specified and the layout is
resolved, it fails exactly when composing the storage layout with the
communication volume leaves a "none" expression, attaching the diagnostic
to the use location with a note at the value's defining operation. -/
theorem claim7_communication_volume (loc : Loc) (use_is : IterationSpace)
    (operand : ValueAccess) (isa : IterationSpaceAnalysis) (pinfo : ProgramInfo)
    (gs : ValueId → ValueStorage) :
    ((use_is.fully_specified = false ∨
        (isa.get (pinfo.value_def operand.value)).fully_specified = false) →
      verifyCommunicationVolume loc use_is operand isa pinfo gs = .ok ())
  ∧ ((gs operand.value).layout = none →
      verifyCommunicationVolume loc use_is operand isa pinfo gs = .ok ())
  ∧ (∀ l, use_is.fully_specified = true →
      (isa.get (pinfo.value_def operand.value)).fully_specified = true →
      (gs operand.value).layout = some l →
      ((verifyCommunicationVolume loc use_is operand isa pinfo gs =
          .error ⟨loc,
            "operand storage must cover all operand dimensions that are not covered by loops common to both operand and user",
            [(pinfo.op_loc (pinfo.value_def operand.value), "operand defined here")]⟩)
        ↔ ((((isa.get (pinfo.value_def operand.value)).mapping.compose l).inverse.compose
              (communicationVolume operand.mapping.exprs.length
                (isa.get (pinfo.value_def operand.value)) use_is)).canonicalize.hasNoneExprs
            = true))
      ∧ ((verifyCommunicationVolume loc use_is operand isa pinfo gs = .ok ())
        ↔ ((((isa.get (pinfo.value_def operand.value)).mapping.compose l).inverse.compose
              (communicationVolume operand.mapping.exprs.length
                (isa.get (pinfo.value_def operand.value)) use_is)).canonicalize.hasNoneExprs
            = false))) := by
  refine ⟨?_, ?_, ?_⟩
  · intro h
    unfold verifyCommunicationVolume
    rcases h with h | h <;> simp [h]
  · intro h
    unfold verifyCommunicationVolume
    by_cases h1 : use_is.fully_specified
    · by_cases h2 : (isa.get (pinfo.value_def operand.value)).fully_specified
      · simp [h1, h2, h]
      · simp [h2]
    · simp [h1]
  · intro l h1 h2 hl
    by_cases hn : (((isa.get (pinfo.value_def operand.value)).mapping.compose l).inverse.compose
        (communicationVolume operand.mapping.exprs.length
          (isa.get (pinfo.value_def operand.value)) use_is)).canonicalize.hasNoneExprs = true
    · constructor
      · simp [verifyCommunicationVolume, h1, h2, hl, hn]
      · simp [verifyCommunicationVolume, h1, h2, hl, hn]
    · constructor
      · simp [verifyCommunicationVolume, h1, h2, hl, hn]
      · simp only [Bool.not_eq_true] at hn
        simp [verifyCommunicationVolume, h1, h2, hl, hn]

/-- Witness for claim C7: with both iteration spaces fully specified, a
resolved 1-expression layout over an empty iteration space yields an empty
composition without "none" expressions, so the check succeeds. -/
theorem claim7_communication_volume_witness :
    ((fun _ => (⟨some "memory", some "b", some ⟨0, [.noneE]⟩⟩ : ValueStorage)) (0 : ValueId)).layout
      = some ⟨0, [.noneE]⟩
  ∧ (verifyCommunicationVolume 0 ⟨[], ⟨0, []⟩, true⟩ ⟨0, ⟨0, []⟩⟩ trivialISA trivialPinfo
        (fun _ => ⟨some "memory", some "b", some ⟨0, [.noneE]⟩⟩) = .ok ()
      ↔ ((((trivialISA.get (trivialPinfo.value_def 0)).mapping.compose
            ⟨0, [.noneE]⟩).inverse.compose
            (communicationVolume (⟨0, ⟨0, []⟩⟩ : ValueAccess).mapping.exprs.length
              (trivialISA.get (trivialPinfo.value_def 0))
              ⟨[], ⟨0, []⟩, true⟩)).canonicalize.hasNoneExprs = false)) :=
  ⟨rfl,
   (claim7_communication_volume 0 ⟨[], ⟨0, []⟩, true⟩ ⟨0, ⟨0, []⟩⟩ trivialISA trivialPinfo
      (fun _ => ⟨some "memory", some "b", some ⟨0, [.noneE]⟩⟩)).2.2
     ⟨0, [.noneE]⟩ rfl rfl rfl |>.2⟩

end SairStorage

namespace SairStorage

theorem checkInPlaceOperands_ok_iff (op_id : OpId) (rstor : ValueStorage) (bn : Name)
    (isa : IterationSpaceAnalysis) (pinfo : ProgramInfo)
    (gs : ValueId → ValueStorage) :
    ∀ ops, checkInPlaceOperands op_id rstor bn isa pinfo gs ops = .ok () ↔
      ∀ operand ∈ ops, (gs operand.value).buffer_name = some bn →
        ((gs operand.value).mapOperand op_id operand isa pinfo).layout = rstor.layout
  | [] => by simp [checkInPlaceOperands]
  | operand :: rest => by
      unfold checkInPlaceOperands
      dsimp only
      by_cases h1 : (gs operand.value).buffer_name ≠ some bn
      · rw [if_pos h1]
        rw [checkInPlaceOperands_ok_iff op_id rstor bn isa pinfo gs rest]
        constructor
        · intro h o ho hbn
          rcases List.mem_cons.mp ho with rfl | ho2
          · exact absurd hbn h1
          · exact h o ho2 hbn
        · intro h o ho hbn
          exact h o (List.mem_cons_of_mem _ ho) hbn
      · rw [if_neg h1]
        push_neg at h1
        by_cases h2 :
            ((gs operand.value).mapOperand op_id operand isa pinfo).layout ≠ rstor.layout
        · rw [if_pos h2]
          constructor
          · intro h; simp at h
          · intro h
            exact absurd (h operand (List.mem_cons_self _ _) h1) h2
        · rw [if_neg h2]
          push_neg at h2
          rw [checkInPlaceOperands_ok_iff op_id rstor bn isa pinfo gs rest]
          constructor
          · intro h o ho hbn
            rcases List.mem_cons.mp ho with rfl | ho2
            · exact h2
            · exact h o ho2 hbn
          · intro h o ho hbn
            exact h o (List.mem_cons_of_mem _ ho) hbn

theorem checkInPlaceOperands_error (op_id : OpId) (rstor : ValueStorage) (bn : Name)
    (isa : IterationSpaceAnalysis) (pinfo : ProgramInfo)
    (gs : ValueId → ValueStorage) :
    ∀ ops d, checkInPlaceOperands op_id rstor bn isa pinfo gs ops = .error d →
      d = ⟨pinfo.op_loc op_id,
        "in-place update of buffer " ++ bn ++ " must use the same layout in input and output",
        []⟩
  | [], d, h => by simp [checkInPlaceOperands] at h
  | operand :: rest, d, h => by
      unfold checkInPlaceOperands at h
      dsimp only at h
      by_cases h1 : (gs operand.value).buffer_name ≠ some bn
      · rw [if_pos h1] at h
        exact checkInPlaceOperands_error op_id rstor bn isa pinfo gs rest d h
      · rw [if_neg h1] at h
        by_cases h2 :
            ((gs operand.value).mapOperand op_id operand isa pinfo).layout ≠ rstor.layout
        · rw [if_pos h2] at h
          simp only [Except.error.injEq] at h
          exact h.symm
        · rw [if_neg h2] at h
          exact checkInPlaceOperands_error op_id rstor bn isa pinfo gs rest d h

theorem checkInPlaceResults_ok_iff (op : ComputeOpInfo) (isa : IterationSpaceAnalysis)
    (pinfo : ProgramInfo) (gs : ValueId → ValueStorage) :
    ∀ rs, checkInPlaceResults op isa pinfo gs rs = .ok () ↔
      ∀ r ∈ rs, ∀ bn, (gs r).buffer_name = some bn →
        ∀ operand ∈ pinfo.op_value_operands op.id,
          (gs operand.value).buffer_name = some bn →
          ((gs operand.value).mapOperand op.id operand isa pinfo).layout = (gs r).layout
  | [] => by simp [checkInPlaceResults]
  | r :: rs => by
      unfold checkInPlaceResults
      dsimp only
      cases hbn : (gs r).buffer_name with
      | none =>
        rw [checkInPlaceResults_ok_iff op isa pinfo gs rs]
        constructor
        · intro h o ho bn hbn2
          rcases List.mem_cons.mp ho with rfl | ho2
          · rw [hbn] at hbn2; exact absurd hbn2 (by simp)
          · exact h o ho2 bn hbn2
        · intro h o ho bn hbn2
          exact h o (List.mem_cons_of_mem _ ho) bn hbn2
      | some bn =>
        dsimp only
        cases hop : checkInPlaceOperands op.id (gs r) bn isa pinfo gs
            (pinfo.op_value_operands op.id) with
        | ok u =>
          cases u
          dsimp only
          rw [checkInPlaceResults_ok_iff op isa pinfo gs rs]
          constructor
          · intro h o ho bn2 hbn2
            rcases List.mem_cons.mp ho with rfl | ho2
            · rw [hbn] at hbn2
              have hbn3 : bn2 = bn := by injection hbn2.symm
              rw [hbn3]
              exact (checkInPlaceOperands_ok_iff _ _ bn isa pinfo gs _).mp hop
            · exact h o ho2 bn2 hbn2
          · intro h o ho bn2 hbn2
            exact h o (List.mem_cons_of_mem _ ho) bn2 hbn2
        | error d =>
          dsimp only
          constructor
          · intro h; simp at h
          · intro h
            have hall := h r (List.mem_cons_self _ _) bn hbn
            have hok := (checkInPlaceOperands_ok_iff op.id (gs r) bn isa pinfo gs
              (pinfo.op_value_operands op.id)).mpr hall
            rw [hop] at hok
            exact absurd hok (by simp)

theorem checkInPlaceResults_error (op : ComputeOpInfo) (isa : IterationSpaceAnalysis)
    (pinfo : ProgramInfo) (gs : ValueId → ValueStorage) :
    ∀ rs d, checkInPlaceResults op isa pinfo gs rs = .error d →
      ∃ bn, d = ⟨pinfo.op_loc op.id,
        "in-place update of buffer " ++ bn ++ " must use the same layout in input and output",
        []⟩
  | [], d, h => by simp [checkInPlaceResults] at h
  | r :: rs, d, h => by
      unfold checkInPlaceResults at h
      dsimp only at h
      cases hbn : (gs r).buffer_name with
      | none =>
        rw [hbn] at h
        exact checkInPlaceResults_error op isa pinfo gs rs d h
      | some bn =>
        rw [hbn] at h
        dsimp only at h
        cases hop : checkInPlaceOperands op.id (gs r) bn isa pinfo gs
            (pinfo.op_value_operands op.id) with
        | ok u =>
          rw [hop] at h
          cases u
          exact checkInPlaceResults_error op isa pinfo gs rs d h
        | error d2 =>
          rw [hop] at h
          simp only [Except.error.injEq] at h
          subst h
          exact ⟨bn, checkInPlaceOperands_error op.id (gs r) bn isa pinfo gs _ d2 hop⟩

/-- Claim C8: for every compute-operation result stored in a named buffer,
every value operand stored in the same buffer must, mapped through the
operand's value-to-operation mapping, have a layout equal to the result's
layout; the in-place check succeeds exactly when all such pairs agree, and
any failure is an in-place-update layout-conflict diagnostic at the
operation. -/
theorem claim8_in_place_layout (op : ComputeOpInfo) (isa : IterationSpaceAnalysis)
    (pinfo : ProgramInfo) (gs : ValueId → ValueStorage) :
    (checkInPlaceOp op isa pinfo gs = .ok () ↔
      ∀ r ∈ op.results, ∀ bn, (gs r).buffer_name = some bn →
        ∀ operand ∈ pinfo.op_value_operands op.id,
          (gs operand.value).buffer_name = some bn →
          ((gs operand.value).mapOperand op.id operand isa pinfo).layout = (gs r).layout)
  ∧ (∀ d, checkInPlaceOp op isa pinfo gs = .error d →
      ∃ bn, d = ⟨pinfo.op_loc op.id,
        "in-place update of buffer " ++ bn ++ " must use the same layout in input and output",
        []⟩) :=
  ⟨checkInPlaceResults_ok_iff op isa pinfo gs op.results,
   fun d h => checkInPlaceResults_error op isa pinfo gs op.results d h⟩

/-- Witness for claim C8: an in-place update of buffer "acc" whose operand
layout is a permutation of the result layout fails with the
layout-conflict diagnostic at the operation. -/
theorem claim8_in_place_layout_witness :
    checkInPlaceOp ⟨4, ["f32"], [1], []⟩ trivialISA
        ⟨fun i => i, fun i => i, fun _ => [], fun _ => [],
         fun o => if o = 4 then [⟨2, ⟨2, [.dim 0, .dim 1]⟩, 0⟩] else [],
         fun _ => true, fun _ => 0, fun _ => 0, fun _ => []⟩
        (fun v => if v = 1 then ⟨some "memory", some "acc", some ⟨2, [.dim 0, .dim 1]⟩⟩
          else if v = 2 then ⟨some "memory", some "acc", some ⟨2, [.dim 1, .dim 0]⟩⟩
          else ⟨none, none, none⟩) =
      .error ⟨4, "in-place update of buffer " ++ "acc" ++
        " must use the same layout in input and output", []⟩
  ∧ ∃ bn, (⟨4, "in-place update of buffer " ++ "acc" ++
        " must use the same layout in input and output", []⟩ : Diag) =
      ⟨4, "in-place update of buffer " ++ bn ++
        " must use the same layout in input and output", []⟩ :=
  ⟨rfl,
   (claim8_in_place_layout ⟨4, ["f32"], [1], []⟩ trivialISA
      ⟨fun i => i, fun i => i, fun _ => [], fun _ => [],
       fun o => if o = 4 then [⟨2, ⟨2, [.dim 0, .dim 1]⟩, 0⟩] else [],
       fun _ => true, fun _ => 0, fun _ => 0, fun _ => []⟩
      (fun v => if v = 1 then ⟨some "memory", some "acc", some ⟨2, [.dim 0, .dim 1]⟩⟩
        else if v = 2 then ⟨some "memory", some "acc", some ⟨2, [.dim 1, .dim 0]⟩⟩
        else ⟨none, none, none⟩)).2
     ⟨4, "in-place update of buffer " ++ "acc" ++
       " must use the same layout in input and output", []⟩ rfl⟩

end SairStorage

namespace SairStorage

theorem checkWritesBeforeDef_ok_iff (name : Name) (def_op : OpId) (pinfo : ProgramInfo) :
    ∀ ws, checkWritesBeforeDef name def_op pinfo ws = .ok () ↔
      ∀ w ∈ ws, ¬ (pinfo.op_pos w.1 < pinfo.op_pos def_op)
  | [] => by simp [checkWritesBeforeDef]
  | w :: ws => by
      unfold checkWritesBeforeDef
      by_cases h1 : pinfo.op_pos w.1 < pinfo.op_pos def_op
      · rw [if_pos h1]
        constructor
        · intro h; simp at h
        · intro h
          exact absurd h1 (h w (List.mem_cons_self _ _))
      · rw [if_neg h1]
        rw [checkWritesBeforeDef_ok_iff name def_op pinfo ws]
        constructor
        · intro h v hv
          rcases List.mem_cons.mp hv with rfl | hv2
          · exact h1
          · exact h v hv2
        · intro h v hv
          exact h v (List.mem_cons_of_mem _ hv)

theorem checkWritesBeforeDef_error (name : Name) (def_op : OpId) (pinfo : ProgramInfo) :
    ∀ ws d, checkWritesBeforeDef name def_op pinfo ws = .error d →
      ∃ w ∈ ws, pinfo.op_pos w.1 < pinfo.op_pos def_op ∧
        d = ⟨pinfo.op_loc w.1, "buffer " ++ name ++ " used before it is defined",
          [(pinfo.op_loc def_op, "buffer defined here")]⟩
  | [], d, h => by simp [checkWritesBeforeDef] at h
  | w :: ws, d, h => by
      unfold checkWritesBeforeDef at h
      by_cases h1 : pinfo.op_pos w.1 < pinfo.op_pos def_op
      · rw [if_pos h1] at h
        simp only [Except.error.injEq] at h
        exact ⟨w, List.mem_cons_self _ _, h1, h.symm⟩
      · rw [if_neg h1] at h
        obtain ⟨v, hv, hlt, hd⟩ := checkWritesBeforeDef_error name def_op pinfo ws d h
        exact ⟨v, List.mem_cons_of_mem _ hv, hlt, hd⟩

/-- Claim C9, amended: for every external buffer, the ordering check of the
analysis succeeds exactly when no write precedes the operation defining the
imported memref (the memref operand of the import operation — the code
orders writes against that defining operation, not against the import
operation itself); a failure produces a "used before it is defined"
diagnostic at the writing operation with a "buffer defined here" note at
the memref definition, and the check only inspects writes — modifying the
recorded reads of every buffer does not change its outcome. -/
theorem claim9_external_write_order (pinfo : ProgramInfo) :
    (∀ bs, checkExternalWrites pinfo bs = .ok () ↔
      ∀ p ∈ bs, ∀ imp, p.2.import_op = some imp →
        ∀ w ∈ p.2.writes,
          ¬ (pinfo.op_pos w.1 < pinfo.op_pos (pinfo.value_def imp.memref_value)))
  ∧ (∀ bs d, checkExternalWrites pinfo bs = .error d →
      ∃ p ∈ bs, ∃ imp, p.2.import_op = some imp ∧ ∃ w ∈ p.2.writes,
        pinfo.op_pos w.1 < pinfo.op_pos (pinfo.value_def imp.memref_value) ∧
        d = ⟨pinfo.op_loc w.1, "buffer " ++ p.1 ++ " used before it is defined",
          [(pinfo.op_loc (pinfo.value_def imp.memref_value), "buffer defined here")]⟩)
  ∧ (∀ (f : Name → Buffer → List (OpId × Nat)) bs,
      checkExternalWrites pinfo
          (bs.map (fun p => (p.1, { p.2 with reads := f p.1 p.2 }))) =
        checkExternalWrites pinfo bs) := by
  refine ⟨?_, ?_, ?_⟩
  · intro bs
    induction bs with
    | nil => simp [checkExternalWrites]
    | cons p ps ih =>
      obtain ⟨name, b⟩ := p
      unfold checkExternalWrites
      cases him : b.import_op with
      | none =>
        rw [ih]
        constructor
        · intro h q hq imp himp
          rcases List.mem_cons.mp hq with rfl | hq2
          · rw [him] at himp; exact absurd himp (by simp)
          · exact h q hq2 imp himp
        · intro h q hq imp himp
          exact h q (List.mem_cons_of_mem _ hq) imp himp
      | some imp =>
        dsimp only
        cases hw : checkWritesBeforeDef name (pinfo.value_def imp.memref_value) pinfo
            b.writes with
        | ok u =>
          cases u
          dsimp only
          rw [ih]
          constructor
          · intro h q hq imp2 himp2
            rcases List.mem_cons.mp hq with rfl | hq2
            · rw [him] at himp2
              have himp3 : imp2 = imp := by injection himp2.symm
              rw [himp3]
              exact (checkWritesBeforeDef_ok_iff name _ pinfo b.writes).mp hw
            · exact h q hq2 imp2 himp2
          · intro h q hq imp2 himp2
            exact h q (List.mem_cons_of_mem _ hq) imp2 himp2
        | error d =>
          dsimp only
          constructor
          · intro h; simp at h
          · intro h
            have hall := h (name, b) (List.mem_cons_self _ _) imp him
            have hok := (checkWritesBeforeDef_ok_iff name
              (pinfo.value_def imp.memref_value) pinfo b.writes).mpr hall
            rw [hw] at hok
            exact absurd hok (by simp)
  · intro bs
    induction bs with
    | nil => intro d h; simp [checkExternalWrites] at h
    | cons p ps ih =>
      intro d h
      obtain ⟨name, b⟩ := p
      unfold checkExternalWrites at h
      cases him : b.import_op with
      | none =>
        rw [him] at h
        obtain ⟨q, hq, imp, himp, hrest⟩ := ih d h
        exact ⟨q, List.mem_cons_of_mem _ hq, imp, himp, hrest⟩
      | some imp =>
        rw [him] at h
        dsimp only at h
        cases hw : checkWritesBeforeDef name (pinfo.value_def imp.memref_value) pinfo
            b.writes with
        | ok u =>
          rw [hw] at h
          cases u
          dsimp only at h
          obtain ⟨q, hq, imp2, himp2, hrest⟩ := ih d h
          exact ⟨q, List.mem_cons_of_mem _ hq, imp2, himp2, hrest⟩
        | error d2 =>
          rw [hw] at h
          dsimp only at h
          simp only [Except.error.injEq] at h
          subst h
          obtain ⟨w, hwmem, hlt, hd⟩ := checkWritesBeforeDef_error name
            (pinfo.value_def imp.memref_value) pinfo b.writes d2 hw
          exact ⟨(name, b), List.mem_cons_self _ _, imp, him, w, hwmem, hlt, hd⟩
  · intro f bs
    induction bs with
    | nil => rfl
    | cons p ps ih =>
      obtain ⟨name, b⟩ := p
      simp only [List.map_cons]
      unfold checkExternalWrites
      dsimp only
      cases him : b.import_op with
      | none => exact ih
      | some imp =>
        dsimp only
        cases hw : checkWritesBeforeDef name (pinfo.value_def imp.memref_value) pinfo
            b.writes with
        | ok u => cases u; dsimp only; exact ih
        | error d => rfl

/-- Witness for claim C9: an external buffer written by operation 2 while
its memref is defined by operation 8 (and imported by the distinct
operation 9) fails with the use-before-definition diagnostic at the write
and a note at the memref definition. -/
theorem claim9_external_write_order_witness :
    checkExternalWrites
        ⟨fun i => i, fun i => i, fun _ => [], fun _ => [], fun _ => [], fun _ => true,
         fun v => if v = 5 then 8 else 0, fun _ => 0, fun _ => []⟩
        [("e", ⟨9, "f32", some ⟨9, "f32", "e", 5, 1, 0⟩, [], [], none, [(2, 0)], [], []⟩)] =
      .error ⟨2, "buffer " ++ "e" ++ " used before it is defined",
        [((8 : Loc), "buffer defined here")]⟩
  ∧ ∃ p ∈ [("e",
        (⟨9, "f32", some ⟨9, "f32", "e", 5, 1, 0⟩, [], [], none, [(2, 0)], [], []⟩ : Buffer))],
      ∃ imp, p.2.import_op = some imp ∧ ∃ w ∈ p.2.writes,
        (⟨fun i => i, fun i => i, fun _ => [], fun _ => [], fun _ => [], fun _ => true,
          fun v => if v = 5 then 8 else 0, fun _ => 0, fun _ => []⟩ : ProgramInfo).op_pos w.1 <
          (⟨fun i => i, fun i => i, fun _ => [], fun _ => [], fun _ => [], fun _ => true,
            fun v => if v = 5 then 8 else 0, fun _ => 0, fun _ => []⟩ : ProgramInfo).op_pos
            ((⟨fun i => i, fun i => i, fun _ => [], fun _ => [], fun _ => [], fun _ => true,
              fun v => if v = 5 then 8 else 0, fun _ => 0, fun _ => []⟩ : ProgramInfo).value_def
              imp.memref_value) ∧
        (⟨2, "buffer " ++ "e" ++ " used before it is defined",
          [((8 : Loc), "buffer defined here")]⟩ : Diag) =
          ⟨(⟨fun i => i, fun i => i, fun _ => [], fun _ => [], fun _ => [], fun _ => true,
            fun v => if v = 5 then 8 else 0, fun _ => 0, fun _ => []⟩ : ProgramInfo).op_loc w.1,
           "buffer " ++ p.1 ++ " used before it is defined",
           [((⟨fun i => i, fun i => i, fun _ => [], fun _ => [], fun _ => [], fun _ => true,
              fun v => if v = 5 then 8 else 0, fun _ => 0, fun _ => []⟩ : ProgramInfo).op_loc
              ((⟨fun i => i, fun i => i, fun _ => [], fun _ => [], fun _ => [], fun _ => true,
                fun v => if v = 5 then 8 else 0, fun _ => 0, fun _ => []⟩ : ProgramInfo).value_def
                imp.memref_value), "buffer defined here")]⟩ :=
  ⟨rfl,
   (claim9_external_write_order
      ⟨fun i => i, fun i => i, fun _ => [], fun _ => [], fun _ => [], fun _ => true,
       fun v => if v = 5 then 8 else 0, fun _ => 0, fun _ => []⟩).2.1
     [("e", ⟨9, "f32", some ⟨9, "f32", "e", 5, 1, 0⟩, [], [], none, [(2, 0)], [], []⟩)]
     ⟨2, "buffer " ++ "e" ++ " used before it is defined",
      [((8 : Loc), "buffer defined here")]⟩ rfl⟩

/-- Claim C9 counterexample: the claim as stated — a write that precedes
the import operation in program order must make the ordering check fail —
is false.  Here the buffer "e" is imported by operation 9 whose memref
operand is defined by operation 3; the single write is operation 6, which
precedes the import operation (position 6 < 9) yet follows the memref
definition, and the check succeeds: the code orders writes against the
memref-defining operation, not against the import operation. -/
theorem claim9_external_write_order_counterexample :
    (⟨fun i => i, fun i => i, fun _ => [], fun _ => [], fun _ => [], fun _ => true,
      fun v => if v = 5 then 3 else 0, fun _ => 0, fun _ => []⟩ : ProgramInfo).op_pos 6 <
      (⟨fun i => i, fun i => i, fun _ => [], fun _ => [], fun _ => [], fun _ => true,
        fun v => if v = 5 then 3 else 0, fun _ => 0, fun _ => []⟩ : ProgramInfo).op_pos
        (⟨9, "f32", "e", 5, 1, 0⟩ : ImportOp).id
  ∧ (⟨9, "f32", some ⟨9, "f32", "e", 5, 1, 0⟩, [], [], none, [(6, 0)], [], []⟩ :
      Buffer).import_op = some ⟨9, "f32", "e", 5, 1, 0⟩
  ∧ (⟨9, "f32", some ⟨9, "f32", "e", 5, 1, 0⟩, [], [], none, [(6, 0)], [], []⟩ :
      Buffer).writes = [(6, 0)]
  ∧ checkExternalWrites
      ⟨fun i => i, fun i => i, fun _ => [], fun _ => [], fun _ => [], fun _ => true,
       fun v => if v = 5 then 3 else 0, fun _ => 0, fun _ => []⟩
      [("e", ⟨9, "f32", some ⟨9, "f32", "e", 5, 1, 0⟩, [], [], none, [(6, 0)], [], []⟩)] =
    .ok () :=
  ⟨by decide, rfl, rfl, rfl⟩

end SairStorage
